import Mathlib

/-!
# pchain: signing record, rotation step and per-height reset

A shallow embedding of

* `PrivValidator.signBytesHRS`, `PrivValidator.save`, `PrivValidator.Save`,
  `voteToStep`, `PrivValidator.SignVote` and `PrivValidator.SignProposal`
  (`vendor/github.com/tendermint/tendermint/types/priv_validator.go`),
* `ConsensusState.pickLongStep`, `ConsensusState.Initialize`,
  `ConsensusState.UpdateToState`, `ConsensusState.InitState` and
  `ConsensusState.StartNewHeight`
  (`vendor/github.com/ethereum/go-ethereum/consensus/pdbft/consensus/state1.go`),
* the Validate callbacks and the Apply callbacks `jcc_ApplyCb`, `dimc_ApplyCb` and
  `wfcc_ApplyCb` of the cross-chain actions
  (`vendor/github.com/ethereum/go-ethereum/internal/ethapi/chain.go`).

Conventions of the embedding.

* Go `int`, `int8` values are only compared by `signBytesHRS`, never added, so they
  are integers; `uint64` arithmetic of `pickLongStep` is carried out modulo `2 ^ 64`.
* A Go slice or interface value that the source tests against `nil` is an `Option`
  (`none` is `nil`).  A pointer that the source dereferences without a test is the
  value it points to.
* A Go panic (`PanicSanity`, `PanicCrisis`, a run-time panic of a library call) is an
  outcome of its own, distinct from a returned error.
-/

namespace PChain

/-! ## Signing record (`priv_validator.go`) -/

/-- A Go `[]byte`: `none` is the nil slice, `some bs` a non-nil slice (`some []` is the
non-nil slice of length 0). -/
abbrev Bytes := Option (List (Fin 256))

/-- A `crypto.Signature` interface value: `none` is the nil interface. -/
abbrev Signature := Option (List (Fin 256))

/-- Go `bytes.Equal`: equality of contents; a nil slice equals an empty one. -/
def bytesEqual (a b : Bytes) : Bool := a.getD [] == b.getD []

/-- The fields of `PrivValidator` read or written by `signBytesHRS` and `save`. -/
structure PrivValidator where
  LastHeight : Int
  LastRound : Int
  LastStep : Int
  LastSignature : Signature
  LastSignBytes : Bytes
  filePath : String
  deriving DecidableEq, Repr

/-- How a call ends.  `ok sig` is `return sig, nil`; `error msg` is
`return nil, errors.New(msg)`; `panic msg` is a Go panic. -/
inductive Outcome where
  | ok (sig : Signature)
  | error (msg : String)
  | panic (msg : String)
  deriving DecidableEq, Repr

/-- The result of `save`: the list of records written with `WriteFileAtomic` (at most
one), and the panic message when `save` panicked. -/
structure SaveResult where
  written : List (String × PrivValidator)
  panicked : Option String
  deriving DecidableEq, Repr

/-- Embedding of `PrivValidator.save`.  `fsErr` is the error returned by
`WriteFileAtomic` (`none` is `nil`). -/
def save (fsErr : Option String) (privVal : PrivValidator) : SaveResult :=
  if privVal.filePath = "" then
    { written := [], panicked := some "Cannot save PrivValidator: filePath not set" }
  else
    match fsErr with
    | some e => { written := [], panicked := some e }
    | none => { written := [(privVal.filePath, privVal)], panicked := none }

/-- What a call of `signBytesHRS` leaves behind: the record in memory, the records
written to disk during the call, and how the call ended. -/
structure SignResult where
  privVal : PrivValidator
  written : List (String × PrivValidator)
  out : Outcome
  deriving DecidableEq, Repr

/-- Lines 294-305 of `signBytesHRS`: sign, update the record in memory, `save`, return
the signature.  A panic of `save` leaves the updated record in memory. -/
def signAndSave (Sign : Bytes → Signature) (fsErr : Option String)
    (privVal : PrivValidator) (height round step : Int) (signBytes : Bytes) : SignResult :=
  let signature := Sign signBytes
  let privVal1 : PrivValidator :=
    { privVal with
      LastHeight := height, LastRound := round, LastStep := step,
      LastSignature := signature, LastSignBytes := signBytes }
  let s := save fsErr privVal1
  match s.panicked with
  | some msg => ⟨privVal1, s.written, .panic msg⟩
  | none => ⟨privVal1, s.written, .ok signature⟩

/-- Embedding of `PrivValidator.signBytesHRS`.  `Sign` is the configured `Signer`,
`fsErr` the error `WriteFileAtomic` would return. -/
def signBytesHRS (Sign : Bytes → Signature) (fsErr : Option String)
    (privVal : PrivValidator) (height round step : Int) (signBytes : Bytes) : SignResult :=
  if privVal.LastHeight > height then
    ⟨privVal, [], .error "Height regression"⟩
  else if privVal.LastHeight = height then
    if privVal.LastRound > round then
      ⟨privVal, [], .error "Round regression"⟩
    else if privVal.LastRound = round then
      if privVal.LastStep > step then
        ⟨privVal, [], .error "Step regression"⟩
      else if privVal.LastStep = step then
        if privVal.LastSignBytes ≠ none then
          if privVal.LastSignature = none then
            ⟨privVal, [], .panic "privVal: LastSignature is nil but LastSignBytes is not!"⟩
          else if bytesEqual privVal.LastSignBytes signBytes then
            ⟨privVal, [], .ok privVal.LastSignature⟩
          else
            ⟨privVal, [], .error "Step regression"⟩
        else
          ⟨privVal, [], .error "Step regression"⟩
      else
        signAndSave Sign fsErr privVal height round step signBytes
    else
      signAndSave Sign fsErr privVal height round step signBytes
  else
    signAndSave Sign fsErr privVal height round step signBytes

/-- Strict lexicographic order on coordinates `(height, round, step)`. -/
def hrsLt (a b : Int × Int × Int) : Prop :=
  a.1 < b.1 ∨ (a.1 = b.1 ∧ (a.2.1 < b.2.1 ∨ (a.2.1 = b.2.1 ∧ a.2.2 < b.2.2)))

instance (a b : Int × Int × Int) : Decidable (hrsLt a b) := by
  unfold hrsLt; infer_instance

/-- Lexicographic order on coordinates. -/
def hrsLe (a b : Int × Int × Int) : Prop := hrsLt a b ∨ a = b

instance (a b : Int × Int × Int) : Decidable (hrsLe a b) := by
  unfold hrsLe; infer_instance

/-- The coordinate recorded in a signing record. -/
def PrivValidator.hrs (pv : PrivValidator) : Int × Int × Int :=
  (pv.LastHeight, pv.LastRound, pv.LastStep)

/-- One call of `signBytesHRS` together with what the file system answers to the write
it may attempt. -/
structure Call where
  height : Int
  round : Int
  step : Int
  signBytes : Bytes
  fsErr : Option String
  deriving DecidableEq, Repr

/-- The coordinate requested by a call. -/
def Call.hrs (c : Call) : Int × Int × Int := (c.height, c.round, c.step)

/-- A sequence of `signBytesHRS` calls on one record: every call starts from the record
the previous call left in memory (also when that call panicked and the panic was
recovered; an execution that halts at a panic is a prefix of such a run). -/
def runCalls (Sign : Bytes → Signature) : PrivValidator → List Call → List SignResult
  | _, [] => []
  | pv, c :: cs =>
    let r := signBytesHRS Sign c.fsErr pv c.height c.round c.step c.signBytes
    r :: runCalls Sign r.privVal cs

/-- The records in memory along a run: the initial one, then the one after each call. -/
def recordTrace (Sign : Bytes → Signature) (pv : PrivValidator) (cs : List Call) :
    List PrivValidator :=
  pv :: (runCalls Sign pv cs).map (fun r => r.privVal)

/-! ## Rotation step and per-height reset (`state1.go`) -/

/-- A `types.Validator`: `VotingPower` is a `*big.Int`, an unbounded integer. -/
structure Validator where
  Address : List (Fin 256)
  VotingPower : Int
  deriving DecidableEq, Repr

/-- A `types.ValidatorSet`. -/
structure ValidatorSet where
  Validators : List Validator
  deriving DecidableEq, Repr

/-- The fields of `ep.Epoch` used here; `StartBlock` and `EndBlock` are `uint64`. -/
structure Epoch where
  Number : Int
  StartBlock : Nat
  EndBlock : Nat
  deriving DecidableEq, Repr

/-- The fields of `types.TendermintExtra` used here; `Height` and `EpochNumber` are
`uint64`. -/
structure TendermintExtra where
  ChainID : String
  Height : Nat
  EpochNumber : Nat
  deriving DecidableEq, Repr

/-- The fields of `sm.State` used here. -/
structure State where
  TdmExtra : TendermintExtra
  Epoch : Epoch
  deriving DecidableEq, Repr

/-- Modelled from the spec: the `Step` enumeration of the round state (the Go type
`RoundStepType` is declared outside the files at hand). -/
inductive RoundStepType where
  | RoundStepNewHeight
  | RoundStepPropose
  | RoundStepPrevote
  | RoundStepPrevoteWait
  | RoundStepPrecommit
  | RoundStepPrecommitWait
  | RoundStepCommit
  deriving DecidableEq, Repr

/-- Modelled from the spec: a vote collection for one height (the Go types
`HeightVoteSet` and `HeightVoteSignAggr` are declared outside the files at hand).  It
records what it was built for and the votes collected so far. -/
structure HeightVoteSet where
  chainID : String
  height : Nat
  valSet : ValidatorSet
  votes : List (Int × List (Fin 256))
  deriving DecidableEq, Repr

/-- Modelled from the spec: the constructor `NewHeightVoteSet`, which is declared outside
the files at hand: a collection for the given height and validators, with no vote. -/
def NewHeightVoteSet (chainID : String) (height : Nat) (valSet : ValidatorSet) :
    HeightVoteSet :=
  { chainID := chainID, height := height, valSet := valSet, votes := [] }

/-- Modelled from the spec: the constructor `NewHeightVoteSignAggr`, which is declared
outside the files at hand: an aggregator for the given height and validators, with
no vote. -/
def NewHeightVoteSignAggr (chainID : String) (height : Nat) (valSet : ValidatorSet) :
    HeightVoteSet :=
  { chainID := chainID, height := height, valSet := valSet, votes := [] }

/-- The fields of `ConsensusState` (with its embedded `RoundState`) that `Initialize`,
`UpdateToState` and `pickLongStep` read or write.  Blocks, proposals and part sets are
identified by a number; `blockFromMiner` is the `NumberU64` of the block received
from the miner; times are numbers, `0` being the zero `time.Time`.  The field
`powerPerBlockF` (a `*big.Float`) has no counterpart. -/
structure ConsensusState where
  Height : Nat
  Round : Int
  Step : RoundStepType
  StartTime : Nat
  CommitTime : Nat
  proposer : Option Validator
  isProposer : Bool
  ProposerPeerKey : String
  Validators : Option ValidatorSet
  Proposal : Option Nat
  ProposalBlock : Option Nat
  ProposalBlockParts : Option Nat
  LockedRound : Int
  LockedBlock : Option Nat
  LockedBlockParts : Option Nat
  Votes : Option HeightVoteSet
  VoteSignAggr : Option HeightVoteSet
  PrevoteMaj23SignAggr : Option Nat
  PrecommitMaj23SignAggr : Option Nat
  CommitRound : Int
  state : Option State
  totalVotingPower : Int
  pickedStep : Nat
  blockFromMiner : Option Nat
  vrfValIndex : Int
  pastRoundStates : List (Int × Int)
  Epoch : Epoch
  PChainId : String
  deriving DecidableEq, Repr

/-- What `UpdateToState` takes from outside the files at hand: the clock, the commit
timeout, the two chain identifiers of `params`, the validators returned by
`state.GetValidators()`, and the method `newStep`. -/
structure Env where
  now : Nat
  Commit : Nat → Nat
  MainnetPChainId : String
  TestnetPChainId : String
  GetValidators : State → ValidatorSet
  newStep : ConsensusState → ConsensusState

/-- The table scanned by `pickLongStep`. -/
def primeArr : List Nat :=
  [2, 3, 7, 13, 31, 61, 127, 251, 509, 1021, 2039, 4093, 8191,
   16381, 32749, 65521, 131071, 262139, 524287, 1048573, 2097143, 4194301,
   8388593, 16777213, 33554393, 67108859, 134217689]

/-- The `uint64` expression `EndBlock - StartBlock + 1`. -/
def epochBlockCount (e : Epoch) : Nat :=
  ((e.EndBlock + 2 ^ 64 - e.StartBlock) % 2 ^ 64 + 1) % 2 ^ 64

/-- The body of `pickLongStep` after `epBlockCount` and `validatorSize` are computed.
The loop runs over the table from its last entry down and stops at the first entry
that passes the test. -/
def pickLongStepOf (epBlockCount validatorSize : Nat) : Nat :=
  if validatorSize > 1 then
    let tmpNum :=
      if validatorSize > 3 then epBlockCount / (validatorSize / 3)
      else epBlockCount / validatorSize
    match primeArr.reverse.find?
        (fun prime => decide (tmpNum > prime) && decide (epBlockCount % prime ≠ 0)) with
    | some prime => prime
    | none => 1
  else 1

/-- Embedding of `ConsensusState.pickLongStep`: the block range is the one of the
engine's own `Epoch` field. -/
def pickLongStep (cs : ConsensusState) (validators : List Validator) : Nat :=
  pickLongStepOf (epochBlockCount cs.Epoch) validators.length

/-- Embedding of `ConsensusState.Initialize`. -/
def Initialize (cs : ConsensusState) : ConsensusState :=
  { cs with
    Height := 0
    proposer := none
    isProposer := false
    ProposerPeerKey := ""
    Validators := none
    Proposal := none
    ProposalBlock := none
    ProposalBlockParts := none
    LockedRound := -1
    LockedBlock := none
    LockedBlockParts := none
    Votes := none
    VoteSignAggr := none
    PrevoteMaj23SignAggr := none
    PrecommitMaj23SignAggr := none
    CommitRound := -1
    state := none
    totalVotingPower := 0
    pickedStep := 1 }

/-- Modelled from the spec: the method `updateRoundStep`, which is declared outside the
files at hand: it sets the round and the step. -/
def updateRoundStep (cs : ConsensusState) (round : Int) (step : RoundStepType) :
    ConsensusState :=
  { cs with Round := round, Step := step }

/-- The loop of `UpdateToState` that adds the voting powers up, one `big.Int` addition
per validator, starting from `big.NewInt(0)`. -/
def sumVotingPower (vals : List Validator) : Int :=
  vals.foldl (fun acc validator => acc + validator.VotingPower) 0

/-- What `UpdateToState` leaves behind: the engine, and the panic message when the call
panicked. -/
structure UpdateResult where
  cs : ConsensusState
  panicked : Option String

/-- Lines 100-113 of `UpdateToState`: `Initialize`, the next height, the block received
from the miner (kept only when its number is at least the new height), round and step. -/
def resetHeight (cs0 : ConsensusState) (state : State) : ConsensusState :=
  let cs := Initialize cs0
  let height := (state.TdmExtra.Height + 1) % 2 ^ 64
  let blockFromMiner :=
    match cs0.blockFromMiner with
    | some number => if number ≥ height then some number else none
    | none => none
  updateRoundStep { cs with Height := height, blockFromMiner := blockFromMiner }
    0 .RoundStepNewHeight

/-- Lines 115-127 of `UpdateToState`: the start time of round 0. -/
def startTimeOf (env : Env) (cs : ConsensusState) (state : State) : Nat :=
  if state.TdmExtra.ChainID = env.MainnetPChainId
      ∨ state.TdmExtra.ChainID = env.TestnetPChainId then
    env.Commit env.now
  else if cs.CommitTime = 0 then
    env.Commit env.now
  else
    env.Commit cs.CommitTime

/-- Lines 130-143 of `UpdateToState`: the fields reset from `state`, the total voting
power among them. -/
def resetFromState (env : Env) (cs : ConsensusState) (state : State) : ConsensusState :=
  let validators := env.GetValidators state
  { cs with
    StartTime := startTimeOf env cs state
    Validators := some validators
    Votes := some (NewHeightVoteSet cs.PChainId cs.Height validators)
    VoteSignAggr := some (NewHeightVoteSignAggr cs.PChainId cs.Height validators)
    vrfValIndex := -1
    pastRoundStates := []
    state := some state
    totalVotingPower := sumVotingPower validators.Validators }

/-- Embedding of `ConsensusState.UpdateToState`.  `big.Float.Quo` panics when both
operands are zero, which is when the total voting power and the block count of
`state.Epoch` are both `0`; the quotient itself is not represented. -/
def UpdateToState (env : Env) (cs0 : ConsensusState) (state : State) : UpdateResult :=
  let cs := resetFromState env (resetHeight cs0 state) state
  let blockCount := epochBlockCount state.Epoch
  if cs.totalVotingPower = 0 ∧ blockCount = 0 then
    { cs := cs, panicked := some "division of zero by zero or infinity by infinity" }
  else
    let validators := env.GetValidators state
    { cs := env.newStep { cs with pickedStep := pickLongStep cs validators.Validators },
      panicked := none }

/-! ## More of the signing record (`priv_validator.go`) -/

/-- Embedding of `PrivValidator.Save`: `save` with the mutex held. -/
def Save (fsErr : Option String) (privVal : PrivValidator) : SaveResult :=
  save fsErr privVal

/-! ## Starting a new height (`state1.go`) -/

/-- A block as the chain reader returns it: its number (`NumberU64`) and the consensus
data that `types.ExtractTendermintExtra` decodes from its header (`none` when the
decoding returns an error). -/
structure EthBlock where
  NumberU64 : Nat
  extra : Option TendermintExtra
  deriving DecidableEq, Repr

/-- What `StartNewHeight` and `InitState` take from outside the files at hand: the chain
reader (`CurrentBlock`, `GetBlockByNumber`), the state built by `sm.MakeGenesisState`,
and the methods `ReconstructLastCommit` (which receives the engine and the state by
reference) and `scheduleRound0`. -/
structure Backend where
  CurrentBlock : EthBlock
  GetBlockByNumber : Nat → Option EthBlock
  MakeGenesisState : State
  ReconstructLastCommit : ConsensusState → State → ConsensusState × State
  scheduleRound0 : ConsensusState → ConsensusState

/-- Embedding of `ConsensusState.LoadTendermintExtra`: the consensus data of the block
at `height`, its height set to the number of the block, or nil. -/
def LoadTendermintExtra (b : Backend) (height : Nat) : Option TendermintExtra × Nat :=
  match b.GetBlockByNumber height with
  | none => (none, 0)
  | some ethBlock =>
    match ethBlock.extra with
    | none => (none, 0)
    | some tdmExtra =>
      let blockHeight := ethBlock.NumberU64
      let tdmExtra :=
        if tdmExtra.Height ≠ blockHeight then { tdmExtra with Height := blockHeight }
        else tdmExtra
      (some tdmExtra, tdmExtra.Height)

/-- Embedding of `ConsensusState.LoadLastTendermintExtra`. -/
def LoadLastTendermintExtra (b : Backend) : Option TendermintExtra × Nat :=
  let curHeight := b.CurrentBlock.NumberU64
  if curHeight = 0 then (none, 0) else LoadTendermintExtra b curHeight

/-- What `InitState` leaves behind: the engine, the state it returns, and the message
of `cmn.Exit` when the process exits. -/
structure InitResult where
  cs : ConsensusState
  state : State
  exited : Option String

/-- Embedding of `ConsensusState.InitState`.  `uint64(epoch.Number)` is the epoch number
modulo `2 ^ 64`. -/
def InitState (b : Backend) (cs : ConsensusState) (epoch : Epoch) : InitResult :=
  match (LoadLastTendermintExtra b).1 with
  | none =>
    let state := b.MakeGenesisState
    if state.TdmExtra.EpochNumber ≠ (epoch.Number % 2 ^ 64).toNat then
      { cs := cs, state := state, exited := some "InitStateAndEpoch(), initial state error" }
    else
      { cs := cs, state := { state with Epoch := epoch }, exited := none }
  | some tdmExtra =>
    let r := b.ReconstructLastCommit cs { TdmExtra := tdmExtra, Epoch := epoch }
    { cs := r.1, state := r.2, exited := none }

/-- What `StartNewHeight` leaves behind: the engine, and the message of the exit or
panic when the call did not run to its end. -/
structure StartResult where
  cs : ConsensusState
  halted : Option String

/-- Embedding of `ConsensusState.StartNewHeight`: `InitState` on the engine's own epoch,
`UpdateToState`, `newStep`, `scheduleRound0`, with no test of the current height. -/
def StartNewHeight (env : Env) (b : Backend) (cs : ConsensusState) : StartResult :=
  let i := InitState b cs cs.Epoch
  match i.exited with
  | some msg => { cs := i.cs, halted := some msg }
  | none =>
    let u := UpdateToState env i.cs i.state
    match u.panicked with
    | some msg => { cs := u.cs, halted := some msg }
    | none => { cs := b.scheduleRound0 (env.newStep u.cs), halted := none }

/-! ## Cross-chain callbacks (`chain.go`): data -/

/-- A `common.Address` (20 bytes), as its bytes. -/
abbrev Address := List (Fin 256)

/-- A `common.Hash`, as its bytes. -/
abbrev Hash := List (Fin 256)

/-- A Go `string`, as its bytes: `string(b)` of a byte slice `b` is `b` itself. -/
abbrev GoString := List (Fin 256)

/-- The go-ethereum function `common.BytesToAddress`: the last 20 bytes of the input,
padded with zero bytes on the left. -/
def BytesToAddress (b : List (Fin 256)) : Address :=
  List.replicate (20 - b.length) 0 ++ b.drop (b.length - 20)

/-- The Go function `new(big.Int).SetBytes`: the bytes read as a big-endian unsigned
integer. -/
def bigIntSetBytes (b : List (Fin 256)) : Int :=
  b.foldl (fun acc x => acc * 256 + (x.val : Int)) 0

/-- The dynamic types of the values a transaction carries in its parameters. -/
inductive Value where
  | address (a : Address)
  | string (s : GoString)
  | bigInt (n : Int)
  | uint16 (n : Nat)
  | uint64 (n : Nat)
  | hash (h : Hash)
  | bytes (b : List (Fin 256))
  deriving DecidableEq, Repr

/-- The fields of `types.ExtendTxData`; `Params` is a `KeyValueSet`, an association
list from names to values. -/
structure ExtendTxData where
  FuncName : String
  Params : List (String × Value)
  deriving DecidableEq, Repr

/-- A `types.Transaction`: what `ExtendTxData()` returns (`none` is nil) and what
`Hash()` returns. -/
structure Transaction where
  ExtendTxData : Option ExtendTxData
  Hash : Hash
  deriving DecidableEq, Repr

/-- `KeyValueSet.Get`: the value stored under the name, or nil. -/
def ExtendTxData.Get (etd : ExtendTxData) (key : String) : Option Value :=
  etd.Params.lookup key

/-- The type assertion `.(common.Address)`; `none` stands for its panic. -/
def asAddress : Option Value → Option Address
  | some (.address a) => some a
  | _ => none

/-- The type assertion `.(string)`; `none` stands for its panic. -/
def asString : Option Value → Option GoString
  | some (.string s) => some s
  | _ => none

/-- The type assertion `.(*big.Int)`; `none` stands for its panic. -/
def asBigInt : Option Value → Option Int
  | some (.bigInt n) => some n
  | _ => none

/-- The type assertion `.(uint16)`; `none` stands for its panic. -/
def asUint16 : Option Value → Option Nat
  | some (.uint16 n) => some n
  | _ => none

/-- The type assertion `.(uint64)`; `none` stands for its panic. -/
def asUint64 : Option Value → Option Nat
  | some (.uint64 n) => some n
  | _ => none

/-- The type assertion `.(common.Hash)`; `none` stands for its panic. -/
def asHash : Option Value → Option Hash
  | some (.hash h) => some h
  | _ => none

/-- The type assertion `.([]byte)`; `none` stands for its panic. -/
def asBytes : Option Value → Option (List (Fin 256))
  | some (.bytes b) => some b
  | _ => none

/-- Modelled from the spec: the account state `st.StateDB`, which is declared outside
the files at hand: for every account a balance, a locked balance and a chain
balance, the account and chain balances that the callbacks may mutate. -/
structure StateDB where
  balance : Address → Int
  lockedBalance : Address → Int
  chainBalance : Address → Int

/-- Modelled from the spec: `StateDB.GetBalance`, declared outside the files at hand:
the balance of the account. -/
def StateDB.GetBalance (s : StateDB) (addr : Address) : Int := s.balance addr

/-- Modelled from the spec: `StateDB.GetChainBalance`, declared outside the files at
hand: the chain balance of the account. -/
def StateDB.GetChainBalance (s : StateDB) (addr : Address) : Int := s.chainBalance addr

/-- Modelled from the spec: `StateDB.SubBalance`, declared outside the files at hand:
it lowers the balance of the account by the amount. -/
def StateDB.SubBalance (s : StateDB) (addr : Address) (amount : Int) : StateDB :=
  { s with balance := Function.update s.balance addr (s.balance addr - amount) }

/-- Modelled from the spec: `StateDB.AddLockedBalance`, declared outside the files at
hand: it raises the locked balance of the account by the amount. -/
def StateDB.AddLockedBalance (s : StateDB) (addr : Address) (amount : Int) : StateDB :=
  { s with lockedBalance := Function.update s.lockedBalance addr (s.lockedBalance addr + amount) }

/-- Modelled from the spec: `StateDB.AddChainBalance`, declared outside the files at
hand: it raises the chain balance of the account by the amount. -/
def StateDB.AddChainBalance (s : StateDB) (addr : Address) (amount : Int) : StateDB :=
  { s with chainBalance := Function.update s.chainBalance addr (s.chainBalance addr + amount) }

/-- An error value: `core.ErrBalance`, or an error with a text (the text of an
`errors.New`, without the formatted arguments, or the text of a helper's error). -/
inductive Err where
  | ErrBalance
  | text (msg : String)
  deriving DecidableEq, Repr

/-- The state behind a `core.CrossChainHelper`: the recorded cross-chain transaction
ids and the chain info database, a store of keys and values. -/
structure HelperState where
  crossChainTxs : List Hash
  chainInfoDB : List (GoString × List (Fin 256))
  deriving DecidableEq, Repr

/-- The field of `core.ChainInfo` used here. -/
structure ChainInfo where
  Owner : Address
  deriving DecidableEq, Repr

/-- The interface `core.CrossChainHelper`, whose implementation is outside the files at
hand: every method receives the helper's state and returns its result with the
state it leaves.  `GetChainInfo` is `core.GetChainInfo(cch.GetChainInfoDB(), chainId)`
(`none` is nil). -/
structure CrossChainHelper where
  CanCreateChildChain :
    HelperState → Address → GoString → Nat → Int → Nat → Nat → Option Err × HelperState
  ValidateJoinChildChain :
    HelperState → Address → GoString → GoString → Int → Option Err × HelperState
  JoinChildChain :
    HelperState → Address → GoString → GoString → Int → Option Err × HelperState
  GetTxFromMainChain : HelperState → Hash → Option Transaction × HelperState
  GetTxFromChildChain : HelperState → Hash → GoString → Option Transaction × HelperState
  VerifyCrossChainTx : HelperState → Hash → Bool × HelperState
  RecordCrossChainTx : HelperState → Address → Hash → Option Err × HelperState
  GetChainInfo : HelperState → GoString → Option ChainInfo × HelperState
  VerifyTdmBlock : HelperState → Address → List (Fin 256) → Option Err × HelperState

/-- How a callback ends: `nil` is `return nil`, `error e` is the return of a non-nil
error, `panic` is a Go panic (a failed type assertion, a nil dereference). -/
inductive CbOutcome where
  | nil
  | error (e : Err)
  | panic (msg : String)
  deriving DecidableEq, Repr

/-- What a callback leaves behind: the account state, the helper's state and how the
call ended. -/
structure CbResult where
  state : StateDB
  helper : HelperState
  out : CbOutcome

/-! ## Cross-chain callbacks (`chain.go`): the Validate callbacks -/

def CCCFuncName : String := "CreateChildChain"
def JCCFuncName : String := "JoinChildChain"
def DIMCFuncName : String := "DepositInMainChain"
def DICCFuncName : String := "DepositInChildChain"
def WFCCFuncName : String := "WithdrawFromChildChain"
def WFMCFuncName : String := "WithdrawFromMainChain"
def SB2MCFuncName : String := "SaveBlockToMainChain"

def CCC_ARGS_FROM : String := "from"
def CCC_ARGS_CHAINID : String := "chainId"
def CCC_ARGS_VALIDATOR_THRESHOLD : String := "validatorThreshold"
def CCC_ARGS_TOKEN_THRESHOLD : String := "tokenThreshold"
def CCC_ARGS_START_BLOCK : String := "startBlock"
def CCC_ARGS_END_BLOCK : String := "endBlock"
def JCC_ARGS_FROM : String := "from"
def JCC_ARGS_PUBKEY : String := "pubkey"
def JCC_ARGS_CHAINID : String := "chainId"
def JCC_ARGS_DEPOSIT : String := "depositAmount"
def DIMC_ARGS_FROM : String := "from"
def DIMC_ARGS_CHAINID : String := "chainId"
def DIMC_ARGS_AMOUNT : String := "amount"
def DICC_ARGS_FROM : String := "from"
def DICC_ARGS_TXHASH : String := "txHash"
def DICC_ARGS_CHAINID : String := "chainId"
def WFCC_ARGS_FROM : String := "from"
def WFCC_ARGS_AMOUNT : String := "amount"
def WFMC_ARGS_FROM : String := "from"
def WFMC_ARGS_CHAINID : String := "chainId"
def WFMC_ARGS_TXHASH : String := "txHash"
def SB2MCFuncName_ARGS_FROM : String := "from"
def SB2MCFuncName_ARGS_BLOCK : String := "block"

/-- The message of the panic of a method call on a nil pointer. -/
def nilDereference : String := "invalid memory address or nil pointer dereference"

/-- The message of the panic of a failed type assertion. -/
def badAssertion : String := "interface conversion"

/-- Embedding of `ccc_ValidateCb`. -/
def ccc_ValidateCb (cch : CrossChainHelper) (tx : Transaction) (state : StateDB)
    (hs : HelperState) : CbResult :=
  match tx.ExtendTxData with
  | none => ⟨state, hs, .panic nilDereference⟩
  | some etd =>
    match asAddress (etd.Get CCC_ARGS_FROM), asString (etd.Get CCC_ARGS_CHAINID),
      asUint16 (etd.Get CCC_ARGS_VALIDATOR_THRESHOLD),
      asBigInt (etd.Get CCC_ARGS_TOKEN_THRESHOLD),
      asUint64 (etd.Get CCC_ARGS_START_BLOCK), asUint64 (etd.Get CCC_ARGS_END_BLOCK) with
    | some sender, some chainId, some minValidators, some minDepositAmount,
      some startBlock, some endBlock =>
      match cch.CanCreateChildChain hs sender chainId minValidators minDepositAmount
          startBlock endBlock with
      | (some err, hs1) => ⟨state, hs1, .error err⟩
      | (none, hs1) => ⟨state, hs1, .nil⟩
    | _, _, _, _, _, _ => ⟨state, hs, .panic badAssertion⟩

/-- Embedding of `jcc_ValidateCb`. -/
def jcc_ValidateCb (cch : CrossChainHelper) (tx : Transaction) (state : StateDB)
    (hs : HelperState) : CbResult :=
  match tx.ExtendTxData with
  | none => ⟨state, hs, .panic nilDereference⟩
  | some etd =>
    match asAddress (etd.Get JCC_ARGS_FROM), asString (etd.Get JCC_ARGS_PUBKEY),
      asString (etd.Get JCC_ARGS_CHAINID), asBigInt (etd.Get JCC_ARGS_DEPOSIT) with
    | some sender, some pubkey, some chainId, some depositAmount =>
      if state.GetBalance sender < depositAmount then
        ⟨state, hs, .error .ErrBalance⟩
      else
        match cch.ValidateJoinChildChain hs sender pubkey chainId depositAmount with
        | (some err, hs1) => ⟨state, hs1, .error err⟩
        | (none, hs1) => ⟨state, hs1, .nil⟩
    | _, _, _, _ => ⟨state, hs, .panic badAssertion⟩

/-- Embedding of `dimc_ValidateCb`. -/
def dimc_ValidateCb (_cch : CrossChainHelper) (tx : Transaction) (state : StateDB)
    (hs : HelperState) : CbResult :=
  match tx.ExtendTxData with
  | none => ⟨state, hs, .panic nilDereference⟩
  | some etd =>
    match asAddress (etd.Get DIMC_ARGS_FROM), asBigInt (etd.Get DIMC_ARGS_AMOUNT) with
    | some sender, some amount =>
      if state.GetBalance sender < amount then
        ⟨state, hs, .error (.text "has no enough balance for deposit")⟩
      else ⟨state, hs, .nil⟩
    | _, _ => ⟨state, hs, .panic badAssertion⟩

/-- Embedding of `dicc_ValidateCb`. -/
def dicc_ValidateCb (cch : CrossChainHelper) (tx : Transaction) (state : StateDB)
    (hs : HelperState) : CbResult :=
  match tx.ExtendTxData with
  | none => ⟨state, hs, .panic nilDereference⟩
  | some etd =>
    match asAddress (etd.Get DICC_ARGS_FROM), asString (etd.Get DICC_ARGS_CHAINID),
      asHash (etd.Get DICC_ARGS_TXHASH) with
    | some sender, some chainId, some txHash =>
      match cch.GetTxFromMainChain hs txHash with
      | (none, hs1) => ⟨state, hs1, .error (.text "tx does not exist in main chain")⟩
      | (some mainTx, hs1) =>
        match cch.VerifyCrossChainTx hs1 txHash with
        | (false, hs2) => ⟨state, hs2, .error (.text "tx already been used")⟩
        | (true, hs2) =>
          match mainTx.ExtendTxData with
          | none => ⟨state, hs2, .error (.text "not expected tx")⟩
          | some mainEtd =>
            if mainEtd.FuncName ≠ DIMCFuncName then
              ⟨state, hs2, .error (.text "not expected tx")⟩
            else
              match asBytes (mainEtd.Get DIMC_ARGS_FROM),
                asBytes (mainEtd.Get DIMC_ARGS_CHAINID) with
              | some mainFromBytes, some mainChainId =>
                if BytesToAddress mainFromBytes ≠ sender ∨ mainChainId ≠ chainId then
                  ⟨state, hs2,
                    .error (.text "params are not consistent with tx in main chain")⟩
                else ⟨state, hs2, .nil⟩
              | _, _ => ⟨state, hs2, .panic badAssertion⟩
    | _, _, _ => ⟨state, hs, .panic badAssertion⟩

/-- Embedding of `wfcc_ValidateCb`. -/
def wfcc_ValidateCb (_cch : CrossChainHelper) (tx : Transaction) (state : StateDB)
    (hs : HelperState) : CbResult :=
  match tx.ExtendTxData with
  | none => ⟨state, hs, .panic nilDereference⟩
  | some etd =>
    match asAddress (etd.Get WFCC_ARGS_FROM), asBigInt (etd.Get WFCC_ARGS_AMOUNT) with
    | some sender, some amount =>
      if state.GetBalance sender < amount then
        ⟨state, hs, .error (.text "no enough balance to withdraw")⟩
      else ⟨state, hs, .nil⟩
    | _, _ => ⟨state, hs, .panic badAssertion⟩

/-- Embedding of `wfmc_ValidateCb`. -/
def wfmc_ValidateCb (cch : CrossChainHelper) (tx : Transaction) (state : StateDB)
    (hs : HelperState) : CbResult :=
  match tx.ExtendTxData with
  | none => ⟨state, hs, .panic nilDereference⟩
  | some etd =>
    match asAddress (etd.Get WFMC_ARGS_FROM), asString (etd.Get WFMC_ARGS_CHAINID),
      asHash (etd.Get WFMC_ARGS_TXHASH) with
    | some sender, some chainId, some txHash =>
      match cch.GetTxFromChildChain hs txHash chainId with
      | (none, hs1) => ⟨state, hs1, .error (.text "tx does not exist in child chain")⟩
      | (some childTx, hs1) =>
        match cch.VerifyCrossChainTx hs1 txHash with
        | (false, hs2) => ⟨state, hs2, .error (.text "tx already been used")⟩
        | (true, hs2) =>
          match childTx.ExtendTxData with
          | none => ⟨state, hs2, .error (.text "not expected tx")⟩
          | some childEtd =>
            if childEtd.FuncName ≠ WFCCFuncName then
              ⟨state, hs2, .error (.text "not expected tx")⟩
            else
              match asBytes (childEtd.Get WFCC_ARGS_FROM),
                asBytes (childEtd.Get WFCC_ARGS_AMOUNT) with
              | some childFromBytes, some childAmountBytes =>
                if BytesToAddress childFromBytes ≠ sender then
                  ⟨state, hs2,
                    .error (.text "params are not consistent with tx in child chain")⟩
                else
                  match cch.GetChainInfo hs2 chainId with
                  | (none, hs3) => ⟨state, hs3, .panic nilDereference⟩
                  | (some chainInfo, hs3) =>
                    if state.GetChainBalance chainInfo.Owner
                        < bigIntSetBytes childAmountBytes then
                      ⟨state, hs3, .error (.text "no enough balance to withdraw")⟩
                    else ⟨state, hs3, .nil⟩
              | _, _ => ⟨state, hs2, .panic badAssertion⟩
    | _, _, _ => ⟨state, hs, .panic badAssertion⟩

/-- Embedding of `sb2mc_ValidateCb`. -/
def sb2mc_ValidateCb (cch : CrossChainHelper) (tx : Transaction) (state : StateDB)
    (hs : HelperState) : CbResult :=
  match tx.ExtendTxData with
  | none => ⟨state, hs, .panic nilDereference⟩
  | some etd =>
    match asAddress (etd.Get SB2MCFuncName_ARGS_FROM),
      asBytes (etd.Get SB2MCFuncName_ARGS_BLOCK) with
    | some sender, some block =>
      match cch.VerifyTdmBlock hs sender block with
      | (some _, hs1) => ⟨state, hs1, .error (.text "block does not pass verification")⟩
      | (none, hs1) => ⟨state, hs1, .nil⟩
    | _, _ => ⟨state, hs, .panic badAssertion⟩

/-! ## Cross-chain callbacks (`chain.go`): Apply callbacks -/

/-- Embedding of `jcc_ApplyCb`. -/
def jcc_ApplyCb (cch : CrossChainHelper) (tx : Transaction) (state : StateDB)
    (hs : HelperState) : CbResult :=
  match tx.ExtendTxData with
  | none => ⟨state, hs, .panic nilDereference⟩
  | some etd =>
    match asBytes (etd.Get JCC_ARGS_FROM), asBytes (etd.Get JCC_ARGS_PUBKEY),
      asBytes (etd.Get JCC_ARGS_CHAINID), asBytes (etd.Get JCC_ARGS_DEPOSIT) with
    | some fromBytes, some pubkey, some chainId, some depositBytes =>
      let sender := BytesToAddress fromBytes
      let depositAmount := bigIntSetBytes depositBytes
      if state.GetBalance sender < depositAmount then
        ⟨state, hs, .error .ErrBalance⟩
      else
        match cch.JoinChildChain hs sender pubkey chainId depositAmount with
        | (some err, hs1) => ⟨state, hs1, .error err⟩
        | (none, hs1) =>
          ⟨(state.SubBalance sender depositAmount).AddLockedBalance sender depositAmount,
            hs1, .nil⟩
    | _, _, _, _ => ⟨state, hs, .panic badAssertion⟩

/-- Embedding of `dimc_ApplyCb`.  The balance is lowered before `chainInfo.Owner` is
read, and what `RecordCrossChainTx` returns is dropped. -/
def dimc_ApplyCb (cch : CrossChainHelper) (tx : Transaction) (state : StateDB)
    (hs : HelperState) : CbResult :=
  match tx.ExtendTxData with
  | none => ⟨state, hs, .panic nilDereference⟩
  | some etd =>
    match asBytes (etd.Get DIMC_ARGS_FROM), asBytes (etd.Get DIMC_ARGS_CHAINID),
      asBytes (etd.Get DIMC_ARGS_AMOUNT) with
    | some fromBytes, some chainId, some amountBytes =>
      let sender := BytesToAddress fromBytes
      let amount := bigIntSetBytes amountBytes
      match cch.GetChainInfo hs chainId with
      | (none, hs1) => ⟨state.SubBalance sender amount, hs1, .panic nilDereference⟩
      | (some chainInfo, hs1) =>
        let state1 := (state.SubBalance sender amount).AddChainBalance chainInfo.Owner amount
        let hs2 := (cch.RecordCrossChainTx hs1 sender tx.Hash).2
        ⟨state1, hs2, .nil⟩
    | _, _, _ => ⟨state, hs, .panic badAssertion⟩

/-- Embedding of `wfcc_ApplyCb`.  What `RecordCrossChainTx` returns is dropped. -/
def wfcc_ApplyCb (cch : CrossChainHelper) (tx : Transaction) (state : StateDB)
    (hs : HelperState) : CbResult :=
  match tx.ExtendTxData with
  | none => ⟨state, hs, .panic nilDereference⟩
  | some etd =>
    match asBytes (etd.Get WFCC_ARGS_FROM), asBytes (etd.Get WFCC_ARGS_AMOUNT) with
    | some fromBytes, some amountBytes =>
      let sender := BytesToAddress fromBytes
      let amount := bigIntSetBytes amountBytes
      if state.GetBalance sender < amount then
        ⟨state, hs, .error (.text "no enough balance to withdraw")⟩
      else
        let hs1 := (cch.RecordCrossChainTx hs sender tx.Hash).2
        ⟨state.SubBalance sender amount, hs1, .nil⟩
    | _, _ => ⟨state, hs, .panic badAssertion⟩

/-- Modelled from the spec: the method `RecordCrossChainTx` of the helper, whose
implementation is outside the files at hand: it records a used cross-chain
transaction id and fails if the id is already recorded. -/
def recordCrossChainTx (hs : HelperState) (_sender : Address) (txHash : Hash) :
    Option Err × HelperState :=
  if txHash ∈ hs.crossChainTxs then
    (some (.text "cross chain tx already recorded"), hs)
  else
    (none, { hs with crossChainTxs := txHash :: hs.crossChainTxs })

/-- The helper's methods that the Validate callbacks call leave the recorded
cross-chain transaction ids as they are. -/
def QueriesKeepRecord (cch : CrossChainHelper) : Prop :=
  (∀ hs a c v d s e, (cch.CanCreateChildChain hs a c v d s e).2.crossChainTxs = hs.crossChainTxs)
  ∧ (∀ hs a p c d, (cch.ValidateJoinChildChain hs a p c d).2.crossChainTxs = hs.crossChainTxs)
  ∧ (∀ hs h, (cch.GetTxFromMainChain hs h).2.crossChainTxs = hs.crossChainTxs)
  ∧ (∀ hs h c, (cch.GetTxFromChildChain hs h c).2.crossChainTxs = hs.crossChainTxs)
  ∧ (∀ hs h, (cch.VerifyCrossChainTx hs h).2.crossChainTxs = hs.crossChainTxs)
  ∧ (∀ hs c, (cch.GetChainInfo hs c).2.crossChainTxs = hs.crossChainTxs)
  ∧ (∀ hs a b, (cch.VerifyTdmBlock hs a b).2.crossChainTxs = hs.crossChainTxs)

/-! ## Signing votes and proposals (`priv_validator.go`) -/

/-- The constant `stepNone`, used to distinguish the initial state. -/
def stepNone : Int := 0

/-- The constant `stepPropose`. -/
def stepPropose : Int := 1

/-- The constant `stepPrevote`. -/
def stepPrevote : Int := 2

/-- The constant `stepPrecommit`. -/
def stepPrecommit : Int := 3

/-- Modelled from the spec: the vote type Prevote, a byte constant declared outside the
files at hand. -/
def VoteTypePrevote : Nat := 1

/-- Modelled from the spec: the vote type Precommit, a byte constant declared outside
the files at hand. -/
def VoteTypePrecommit : Nat := 2

/-- The fields of `Vote` used here: height, round, type (the field `Type`, a byte), the
block voted for, the signature and the signed bytes. -/
structure Vote where
  Height : Int
  Round : Int
  VoteType : Nat
  BlockID : List (Fin 256)
  Signature : Signature
  SignBytes : Bytes
  deriving DecidableEq, Repr

/-- The fields of `Proposal` used here. -/
structure Proposal where
  Height : Int
  Round : Int
  BlockID : List (Fin 256)
  Signature : Signature
  deriving DecidableEq, Repr

/-- Embedding of `voteToStep`; `none` stands for `PanicSanity("Unknown vote type")`. -/
def voteToStep (vote : Vote) : Option Int :=
  if vote.VoteType = VoteTypePrevote then some stepPrevote
  else if vote.VoteType = VoteTypePrecommit then some stepPrecommit
  else none

/-- How `SignVote` and `SignProposal` end: `nil` is `return nil`, `error msg` is the
return of `errors.New(msg)`, `panic msg` is a Go panic. -/
inductive SignOutcome where
  | nil
  | error (msg : String)
  | panic (msg : String)
  deriving DecidableEq, Repr

/-- What `SignVote` leaves behind: the record, the files written, the vote and how the
call ended. -/
structure SignVoteResult where
  privVal : PrivValidator
  written : List (String × PrivValidator)
  vote : Vote
  out : SignOutcome
  deriving DecidableEq, Repr

/-- What `SignProposal` leaves behind: the record, the files written, the proposal and
how the call ended. -/
structure SignProposalResult where
  privVal : PrivValidator
  written : List (String × PrivValidator)
  proposal : Proposal
  out : SignOutcome
  deriving DecidableEq, Repr

/-- Embedding of `PrivValidator.SignVote`.  `voteSignBytes` is the function `SignBytes`
on votes, which is declared outside the files at hand. -/
def SignVote (Sign : Bytes → Signature) (voteSignBytes : String → Vote → Bytes)
    (fsErr : Option String) (privVal : PrivValidator) (chainID : String) (vote : Vote) :
    SignVoteResult :=
  match voteToStep vote with
  | none => ⟨privVal, [], vote, .panic "Unknown vote type"⟩
  | some step =>
    let r := signBytesHRS Sign fsErr privVal vote.Height vote.Round step
      (voteSignBytes chainID vote)
    match r.out with
    | .error msg => ⟨r.privVal, r.written, vote, .error ("Error signing vote: " ++ msg)⟩
    | .panic msg => ⟨r.privVal, r.written, vote, .panic msg⟩
    | .ok signature =>
      ⟨r.privVal, r.written,
        { vote with
          Signature := signature
          SignBytes := voteSignBytes chainID { vote with Signature := signature } },
        .nil⟩

/-- Embedding of `PrivValidator.SignProposal`.  `proposalSignBytes` is the function
`SignBytes` on proposals, which is declared outside the files at hand. -/
def SignProposal (Sign : Bytes → Signature) (proposalSignBytes : String → Proposal → Bytes)
    (fsErr : Option String) (privVal : PrivValidator) (chainID : String)
    (proposal : Proposal) : SignProposalResult :=
  let r := signBytesHRS Sign fsErr privVal proposal.Height proposal.Round stepPropose
    (proposalSignBytes chainID proposal)
  match r.out with
  | .error msg =>
    ⟨r.privVal, r.written, proposal, .error ("Error signing proposal: " ++ msg)⟩
  | .panic msg => ⟨r.privVal, r.written, proposal, .panic msg⟩
  | .ok signature => ⟨r.privVal, r.written, { proposal with Signature := signature }, .nil⟩

/-! ## The rotation step with Go's division (`state1.go`) -/

/-- Go's `/` on `uint64`: a run-time panic, here `none`, when the divisor is 0. -/
def goDiv (a b : Nat) : Option Nat := if b = 0 then none else some (a / b)

/-- Go's `%` on `uint64`: a run-time panic, here `none`, when the divisor is 0. -/
def goMod (a b : Nat) : Option Nat := if b = 0 then none else some (a % b)

/-- The loop of `pickLongStep` over the table entries in the order given, with Go's
`%`, which is evaluated only when `tmpNum > prime` holds: the first entry that passes
the test, 1 when none does, `none` when a modulo panics. -/
def scanPrimes (tmpNum epBlockCount : Nat) : List Nat → Option Nat
  | [] => some 1
  | prime :: rest =>
    if tmpNum > prime then
      match goMod epBlockCount prime with
      | none => none
      | some m => if m ≠ 0 then some prime else scanPrimes tmpNum epBlockCount rest
    else scanPrimes tmpNum epBlockCount rest

/-- The body of `pickLongStep` with Go's `/` and `%` and the conversions
`uint64(validatorSize / 3)` and `uint64(validatorSize)`: `none` when a division or a
modulo panics. -/
def pickLongStepChecked (epBlockCount validatorSize : Nat) : Option Nat :=
  if validatorSize > 1 then
    match (if validatorSize > 3 then goDiv epBlockCount ((validatorSize / 3) % 2 ^ 64)
        else goDiv epBlockCount (validatorSize % 2 ^ 64)) with
    | none => none
    | some tmpNum => scanPrimes tmpNum epBlockCount primeArr.reverse
  else some 1

/-! ## A primality check by trial division, used to check the table -/

/-- Trial division of `n` by `d`, `d + 1`, ... for at most `fuel` candidates: `true` when
a candidate with `n < d * d` is reached before any candidate divides `n`. -/
def trialDivision (n : Nat) : Nat → Nat → Bool
  | 0, d => decide (n < d * d)
  | fuel + 1, d =>
    if n < d * d then true
    else if n % d = 0 then false
    else trialDivision n fuel (d + 1)

/-! ## Concrete records and signers used in the examples -/

/-- A signer that returns the message itself, with the byte `7` in front. -/
def tagSigner : Bytes → Signature := fun m => some (7 :: m.getD [])

/-- The record of a freshly generated validator (`GenPrivValidator`): nothing signed
yet, no file configured. -/
def genRecord : PrivValidator :=
  { LastHeight := 0, LastRound := 0, LastStep := 0,
    LastSignature := none, LastSignBytes := none, filePath := "" }

/-- A freshly generated validator after `SetFile`. -/
def genRecordWithFile : PrivValidator := { genRecord with filePath := "priv_validator.json" }

/-- A record that has signed the message `[1, 2]` at height 5, round 2, step 2. -/
def signedRecord : PrivValidator :=
  { LastHeight := 5, LastRound := 2, LastStep := 2,
    LastSignature := some [7, 1, 2], LastSignBytes := some [1, 2],
    filePath := "priv_validator.json" }

/-- A record whose `LastSignBytes` is present while `LastSignature` is nil. -/
def corruptedRecord : PrivValidator :=
  { LastHeight := 5, LastRound := 2, LastStep := 2,
    LastSignature := none, LastSignBytes := some [1, 2],
    filePath := "priv_validator.json" }

/-- A run of five calls on a validator with a file: a proposal is signed at (1, 0, 1),
a conflicting one is asked for, a prevote is signed at (1, 0, 2), the proposal is
asked for again, the prevote is asked for again. -/
def exampleCalls : List Call :=
  [ { height := 1, round := 0, step := 1, signBytes := some [1], fsErr := none },
    { height := 1, round := 0, step := 1, signBytes := some [2], fsErr := none },
    { height := 1, round := 0, step := 2, signBytes := some [3], fsErr := none },
    { height := 1, round := 0, step := 1, signBytes := some [1], fsErr := none },
    { height := 1, round := 0, step := 2, signBytes := some [3], fsErr := none } ]

/-- The record of the example run once the prevote `[3]` is signed at (1, 0, 2). -/
def prevoteRecord : PrivValidator :=
  { LastHeight := 1, LastRound := 0, LastStep := 2,
    LastSignature := some [7, 3], LastSignBytes := some [3],
    filePath := "priv_validator.json" }

/-- An engine as `Initialize` leaves it, holding the epoch `e`. -/
def engineAt (e : Epoch) : ConsensusState :=
  { Height := 0, Round := 0, Step := .RoundStepNewHeight, StartTime := 0, CommitTime := 0,
    proposer := none, isProposer := false, ProposerPeerKey := "", Validators := none,
    Proposal := none, ProposalBlock := none, ProposalBlockParts := none,
    LockedRound := -1, LockedBlock := none, LockedBlockParts := none,
    Votes := none, VoteSignAggr := none, PrevoteMaj23SignAggr := none,
    PrecommitMaj23SignAggr := none, CommitRound := -1, state := none,
    totalVotingPower := 0, pickedStep := 1, blockFromMiner := none, vrfValIndex := -1,
    pastRoundStates := [], Epoch := e, PChainId := "pchain" }

/-- An epoch of 100 blocks, 1 to 100. -/
def hundredBlocks : Epoch := { Number := 0, StartBlock := 1, EndBlock := 100 }

/-- The epoch that spans every 64-bit block number, 0 to 2 ^ 64 - 1. -/
def fullRangeEpoch : Epoch := { Number := 0, StartBlock := 0, EndBlock := 2 ^ 64 - 1 }

/-- Four validators of power 10. -/
def fourValidators : List Validator :=
  [ { Address := [1], VotingPower := 10 }, { Address := [2], VotingPower := 10 },
    { Address := [3], VotingPower := 10 }, { Address := [4], VotingPower := 10 } ]

/-- Two validators whose powers, 2 ^ 64 and 2 ^ 64 + 5, are beyond the 64-bit range. -/
def largeValidators : List Validator :=
  [ { Address := [1], VotingPower := 2 ^ 64 }, { Address := [2], VotingPower := 2 ^ 64 + 5 } ]

/-- An environment whose `GetValidators` returns `largeValidators` and whose `newStep`
changes nothing. -/
def exampleEnv : Env :=
  { now := 1000, Commit := fun t => t + 1, MainnetPChainId := "pchain",
    TestnetPChainId := "testnet", GetValidators := fun _ => { Validators := largeValidators },
    newStep := fun cs => cs }

/-- A state at height 41 in the epoch of 100 blocks. -/
def exampleState : State :=
  { TdmExtra := { ChainID := "pchain", Height := 41, EpochNumber := 0 },
    Epoch := hundredBlocks }

/-- A state at the largest 64-bit height. -/
def maxHeightState : State :=
  { TdmExtra := { ChainID := "pchain", Height := 2 ^ 64 - 1, EpochNumber := 0 },
    Epoch := hundredBlocks }

/-- An epoch of 1000 blocks, 1 to 1000. -/
def thousandBlocks : Epoch := { Number := 0, StartBlock := 1, EndBlock := 1000 }

/-- A state at height 41 that carries the epoch of 1000 blocks. -/
def thousandState : State :=
  { TdmExtra := { ChainID := "pchain", Height := 41, EpochNumber := 0 },
    Epoch := thousandBlocks }

/-- An engine in the middle of height 42: round 2, step prevote, a proposal, a lock
taken in round 1 and one vote collected. -/
def midRoundEngine : ConsensusState :=
  { engineAt hundredBlocks with
    Height := 42, Round := 2, Step := .RoundStepPrevote,
    Proposal := some 7, ProposalBlock := some 7, ProposalBlockParts := some 7,
    LockedRound := 1, LockedBlock := some 7, LockedBlockParts := some 7,
    Votes := some { chainID := "pchain", height := 42,
                    valSet := { Validators := largeValidators }, votes := [(2, [1])] } }

/-- A chain whose latest committed block is block 41, with helpers that change
nothing. -/
def exampleBackend : Backend :=
  { CurrentBlock :=
      { NumberU64 := 41,
        extra := some { ChainID := "pchain", Height := 41, EpochNumber := 0 } },
    GetBlockByNumber := fun n =>
      if n = 41 then
        some { NumberU64 := 41,
               extra := some { ChainID := "pchain", Height := 41, EpochNumber := 0 } }
      else none,
    MakeGenesisState :=
      { TdmExtra := { ChainID := "pchain", Height := 0, EpochNumber := 0 },
        Epoch := hundredBlocks },
    ReconstructLastCommit := fun cs state => (cs, state),
    scheduleRound0 := fun cs => cs }

/-- The address whose last byte is `n`. -/
def addr (n : Fin 256) : Address := List.replicate 19 0 ++ [n]

/-- Account state in which account 1 has balance 100, locked balance 5, and every
other balance is 0. -/
def exampleAccounts : StateDB :=
  { balance := fun a => if a = addr 1 then 100 else 0,
    lockedBalance := fun a => if a = addr 1 then 5 else 0,
    chainBalance := fun _ => 0 }

/-- A helper whose checks all pass, whose chains are all owned by account 9, that knows
no transaction of another chain, and that records ids as the spec says. -/
def exampleHelper : CrossChainHelper :=
  { CanCreateChildChain := fun hs _ _ _ _ _ _ => (none, hs),
    ValidateJoinChildChain := fun hs _ _ _ _ => (none, hs),
    JoinChildChain := fun hs _ _ _ _ => (none, hs),
    GetTxFromMainChain := fun hs _ => (none, hs),
    GetTxFromChildChain := fun hs _ _ => (none, hs),
    VerifyCrossChainTx := fun hs h => (decide (h ∈ hs.crossChainTxs), hs),
    RecordCrossChainTx := recordCrossChainTx,
    GetChainInfo := fun hs _ => (some { Owner := addr 9 }, hs),
    VerifyTdmBlock := fun hs _ _ => (none, hs) }

/-- A helper state in which the transaction id `[42]` is already recorded. -/
def usedHelperState : HelperState := { crossChainTxs := [[42]], chainInfoDB := [] }

/-- A deposit of 30 by account 1 into the chain `[99]`, with the transaction id `[42]`,
in the form the Apply callbacks read (all parameters as bytes). -/
def depositTx : Transaction :=
  { ExtendTxData := some
      { FuncName := "DepositInMainChain",
        Params := [("from", .bytes [1]), ("chainId", .bytes [99]), ("amount", .bytes [30])] },
    Hash := [42] }

/-- A request of account 1 to join the chain `[99]` with a deposit of 30, in the form
the Apply callbacks read. -/
def joinTx : Transaction :=
  { ExtendTxData := some
      { FuncName := "JoinChildChain",
        Params := [("from", .bytes [1]), ("pubkey", .bytes [8]), ("chainId", .bytes [99]),
          ("depositAmount", .bytes [30])] },
    Hash := [43] }

/-- The same request in the form the Validate callbacks read (typed parameters). -/
def joinTxTyped : Transaction :=
  { ExtendTxData := some
      { FuncName := "JoinChildChain",
        Params := [("from", .address (addr 1)), ("pubkey", .string [8]),
          ("chainId", .string [99]), ("depositAmount", .bigInt 30)] },
    Hash := [43] }

/-- A stand-in for `SignBytes` on votes: height is left out, the type and the block
voted for are the message. -/
def exampleVoteBytes : String → Vote → Bytes :=
  fun _ vote => some (Fin.ofNat vote.VoteType :: vote.BlockID)

/-- A stand-in for `SignBytes` on proposals: the proposed block is the message. -/
def exampleProposalBytes : String → Proposal → Bytes :=
  fun _ proposal => some proposal.BlockID

/-- A record whose last accepted signature is a precommit at height 5, round 2. -/
def precommitRecord : PrivValidator :=
  { LastHeight := 5, LastRound := 2, LastStep := 3,
    LastSignature := some [7, 2, 9], LastSignBytes := some [2, 9],
    filePath := "priv_validator.json" }

/-- An unsigned prevote for block `[9]` at height 5, round 2. -/
def examplePrevote : Vote :=
  { Height := 5, Round := 2, VoteType := 1, BlockID := [9], Signature := none,
    SignBytes := none }

/-- An unsigned proposal of block `[9]` at height 5, round 2. -/
def exampleProposal : Proposal :=
  { Height := 5, Round := 2, BlockID := [9], Signature := none }

/-- An epoch whose end lies below its start, blocks 10 down to 5: the 64-bit block
count wraps to 2 ^ 64 - 4. -/
def wrappedEpoch : Epoch := { Number := 0, StartBlock := 10, EndBlock := 5 }

/-- The example environment at a later reading of the clock. -/
def laterEnv : Env := { exampleEnv with now := 2000 }

/-- An unsigned precommit for block `[9]` at height 5, round 2. -/
def examplePrecommit : Vote :=
  { Height := 5, Round := 2, VoteType := 2, BlockID := [9], Signature := none,
    SignBytes := none }

/-! ## The signing record: single calls -/

/-- A request at a strictly greater coordinate takes the signing path. -/
theorem signBytesHRS_of_hrsLt (Sign : Bytes → Signature) (fsErr : Option String)
    (pv : PrivValidator) (height round step : Int) (signBytes : Bytes)
    (h : hrsLt pv.hrs (height, round, step)) :
    signBytesHRS Sign fsErr pv height round step signBytes
      = signAndSave Sign fsErr pv height round step signBytes := by
  simp only [hrsLt, PrivValidator.hrs] at h
  unfold signBytesHRS
  rcases h with h | ⟨h1, h | ⟨h2, h3⟩⟩
  · have h1 : ¬ pv.LastHeight > height := by omega
    have h2 : ¬ pv.LastHeight = height := by omega
    simp [h1, h2]
  · have h2 : ¬ pv.LastRound > round := by omega
    have h3 : ¬ pv.LastRound = round := by omega
    simp [h1, h2, h3]
  · have h4 : ¬ pv.LastStep > step := by omega
    have h5 : ¬ pv.LastStep = step := by omega
    simp [h1, h2, h4, h5]

/-- The signing path when a file is configured and the write succeeds. -/
theorem signAndSave_ok (Sign : Bytes → Signature)
    (pv : PrivValidator) (height round step : Int) (signBytes : Bytes)
    (hfile : pv.filePath ≠ "") :
    signAndSave Sign none pv height round step signBytes
      = { privVal :=
            { pv with
              LastHeight := height, LastRound := round, LastStep := step,
              LastSignature := Sign signBytes, LastSignBytes := signBytes }
          written :=
            [(pv.filePath,
              { pv with
                LastHeight := height, LastRound := round, LastStep := step,
                LastSignature := Sign signBytes, LastSignBytes := signBytes })]
          out := .ok (Sign signBytes) } := by
  simp [signAndSave, save, hfile]

/-- C1, as stated, fails: for the record of a freshly generated validator, which has no
file configured, a request at the strictly greater coordinate (1, 0, 1) panics in
`save` instead of returning the signature. -/
theorem C1_counterexample :
    hrsLt genRecord.hrs (1, 0, 1)
    ∧ (signBytesHRS tagSigner none genRecord 1 0 1 (some [1, 2])).out
        = .panic "Cannot save PrivValidator: filePath not set"
    ∧ (signBytesHRS tagSigner none genRecord 1 0 1 (some [1, 2])).written = [] := by
  decide

/-- C1, amended: when a file is configured and the atomic write succeeds, a request at
a coordinate strictly greater than the recorded one returns the signer's signature
over the message without error; the record in memory is then (height, round, step,
that signature, the message), and exactly that record has been written to the file. -/
theorem C1_fresh_sign (Sign : Bytes → Signature)
    (pv : PrivValidator) (height round step : Int) (signBytes : Bytes)
    (hlt : hrsLt pv.hrs (height, round, step)) (hfile : pv.filePath ≠ "") :
    (signBytesHRS Sign none pv height round step signBytes).out = .ok (Sign signBytes)
    ∧ (signBytesHRS Sign none pv height round step signBytes).privVal
        = { LastHeight := height, LastRound := round, LastStep := step,
            LastSignature := Sign signBytes, LastSignBytes := signBytes,
            filePath := pv.filePath }
    ∧ (signBytesHRS Sign none pv height round step signBytes).written
        = [(pv.filePath, (signBytesHRS Sign none pv height round step signBytes).privVal)] := by
  rw [signBytesHRS_of_hrsLt Sign none pv height round step signBytes hlt,
    signAndSave_ok Sign pv height round step signBytes hfile]
  exact ⟨rfl, rfl, rfl⟩

/-- Witness of C1: a validator with a file signs `[1, 2]` at (1, 0, 1). -/
theorem C1_fresh_sign_witness :
    hrsLt genRecordWithFile.hrs (1, 0, 1) ∧ genRecordWithFile.filePath ≠ ""
    ∧ (signBytesHRS tagSigner none genRecordWithFile 1 0 1 (some [1, 2])).out
        = .ok (some [7, 1, 2])
    ∧ (signBytesHRS tagSigner none genRecordWithFile 1 0 1 (some [1, 2])).privVal
        = { LastHeight := 1, LastRound := 0, LastStep := 1,
            LastSignature := some [7, 1, 2], LastSignBytes := some [1, 2],
            filePath := "priv_validator.json" } :=
  ⟨by decide, by decide,
    (C1_fresh_sign tagSigner genRecordWithFile 1 0 1 (some [1, 2])
      (by decide) (by decide)).1,
    (C1_fresh_sign tagSigner genRecordWithFile 1 0 1 (some [1, 2])
      (by decide) (by decide)).2.1⟩

/-- C2: a request below the recorded height returns no signature and the error
"Height regression", whatever its round, step and message; the record is unchanged
and nothing is written. -/
theorem C2_height_regression (Sign : Bytes → Signature) (fsErr : Option String)
    (pv : PrivValidator) (height round step : Int) (signBytes : Bytes)
    (h : height < pv.LastHeight) :
    signBytesHRS Sign fsErr pv height round step signBytes
      = { privVal := pv, written := [], out := .error "Height regression" } := by
  unfold signBytesHRS
  simp [h]

/-- Witness of C2: height 4 against a record at height 5. -/
theorem C2_height_regression_witness :
    (4 : Int) < signedRecord.LastHeight
    ∧ signBytesHRS tagSigner none signedRecord 4 9 3 (some [1, 2])
      = { privVal := signedRecord, written := [], out := .error "Height regression" } :=
  ⟨by decide, C2_height_regression tagSigner none signedRecord 4 9 3 (some [1, 2]) (by decide)⟩

/-- C3: at the recorded height, a smaller round fails with "Round regression", and the
recorded round with a smaller step fails with "Step regression"; in both cases no
signature is returned, the record is unchanged and nothing is written. -/
theorem C3_round_step_regression (Sign : Bytes → Signature) (fsErr : Option String)
    (pv : PrivValidator) (height round step : Int) (signBytes : Bytes)
    (hh : height = pv.LastHeight) :
    (round < pv.LastRound →
      signBytesHRS Sign fsErr pv height round step signBytes
        = { privVal := pv, written := [], out := .error "Round regression" })
    ∧ (round = pv.LastRound → step < pv.LastStep →
      signBytesHRS Sign fsErr pv height round step signBytes
        = { privVal := pv, written := [], out := .error "Step regression" }) := by
  subst hh
  constructor
  · intro hr
    unfold signBytesHRS
    simp [hr]
  · intro hr hs
    subst hr
    unfold signBytesHRS
    simp [hs]

/-- Witness of C3: round 1 and (round 2, step 1) against a record at (5, 2, 2). -/
theorem C3_round_step_regression_witness :
    signBytesHRS tagSigner none signedRecord 5 1 3 (some [1, 2])
      = { privVal := signedRecord, written := [], out := .error "Round regression" }
    ∧ signBytesHRS tagSigner none signedRecord 5 2 1 (some [1, 2])
      = { privVal := signedRecord, written := [], out := .error "Step regression" } :=
  ⟨(C3_round_step_regression tagSigner none signedRecord 5 1 3 (some [1, 2]) (by decide)).1
      (by decide),
    (C3_round_step_regression tagSigner none signedRecord 5 2 1 (some [1, 2]) (by decide)).2
      (by decide) (by decide)⟩

/-- C4, as stated, fails: the record of a freshly generated validator is at (0, 0, 0)
with nil `LastSignBytes`; a request at (0, 0, 0) with the nil message, which equals
`LastSignBytes`, is refused with "Step regression".  Likewise an accepted call with
the nil (empty) message, repeated with identical arguments, is refused. -/
theorem C4_counterexample :
    ((0, 0, 0) = genRecordWithFile.hrs ∧ (none : Bytes) = genRecordWithFile.LastSignBytes
      ∧ (signBytesHRS tagSigner none genRecordWithFile 0 0 0 none).out
          = .error "Step regression")
    ∧ ((signBytesHRS tagSigner none genRecordWithFile 1 0 1 none).out = .ok (some [7])
      ∧ (signBytesHRS tagSigner none
            (signBytesHRS tagSigner none genRecordWithFile 1 0 1 none).privVal 1 0 1 none).out
          = .error "Step regression") := by
  decide

/-- C4, amended: when `LastSignBytes` and `LastSignature` are both present, a request at
the recorded coordinate whose message has the content of `LastSignBytes` returns
`LastSignature` without error, leaves the record unchanged and writes nothing.  In
particular, after an accepted call at a strictly greater coordinate with a non-nil
message (the empty one included) and a non-nil signature, the same call repeated
returns the same signature without error and leaves the record unchanged. -/
theorem C4_idempotent_replay (Sign : Bytes → Signature) (fsErr : Option String)
    (pv : PrivValidator) (height round step : Int) (signBytes : Bytes) :
    (pv.hrs = (height, round, step) → pv.LastSignBytes ≠ none → pv.LastSignature ≠ none →
      bytesEqual pv.LastSignBytes signBytes = true →
      signBytesHRS Sign fsErr pv height round step signBytes
        = { privVal := pv, written := [], out := .ok pv.LastSignature })
    ∧ (hrsLt pv.hrs (height, round, step) → pv.filePath ≠ "" → signBytes ≠ none →
      Sign signBytes ≠ none →
      (signBytesHRS Sign none pv height round step signBytes).out = .ok (Sign signBytes)
      ∧ signBytesHRS Sign fsErr
          (signBytesHRS Sign none pv height round step signBytes).privVal
          height round step signBytes
        = { privVal := (signBytesHRS Sign none pv height round step signBytes).privVal,
            written := [], out := .ok (Sign signBytes) }) := by
  constructor
  · intro hhrs hb hs heq
    simp only [PrivValidator.hrs, Prod.mk.injEq] at hhrs
    obtain ⟨h1, h2, h3⟩ := hhrs
    unfold signBytesHRS
    simp [h1, h2, h3, hb, hs, heq]
  · intro hlt hfile hm hsig
    rw [signBytesHRS_of_hrsLt Sign none pv height round step signBytes hlt,
      signAndSave_ok Sign pv height round step signBytes hfile]
    refine ⟨rfl, ?_⟩
    unfold signBytesHRS
    simp [hm, hsig, bytesEqual]

/-- Witness of C4: the message `[1, 2]` replayed at (5, 2, 2); the empty non-nil message
signed at (1, 0, 1) and asked for again. -/
theorem C4_idempotent_replay_witness :
    signBytesHRS tagSigner none signedRecord 5 2 2 (some [1, 2])
      = { privVal := signedRecord, written := [], out := .ok (some [7, 1, 2]) }
    ∧ signBytesHRS tagSigner none
        (signBytesHRS tagSigner none genRecordWithFile 1 0 1 (some [])).privVal
        1 0 1 (some [])
      = { privVal := (signBytesHRS tagSigner none genRecordWithFile 1 0 1 (some [])).privVal,
          written := [], out := .ok (some [7]) } :=
  ⟨(C4_idempotent_replay tagSigner none signedRecord 5 2 2 (some [1, 2])).1
      (by decide) (by decide) (by decide) (by decide),
    ((C4_idempotent_replay tagSigner none genRecordWithFile 1 0 1 (some [])).2
      (by decide) (by decide) (by decide) (by decide)).2⟩

/-- C5, as stated, fails: for a record whose `LastSignBytes` is present while
`LastSignature` is nil, a request at the recorded coordinate with a different message
does not return the error "Step regression": the call panics. -/
theorem C5_counterexample :
    (5, 2, 2) = corruptedRecord.hrs
    ∧ bytesEqual corruptedRecord.LastSignBytes (some [9]) = false
    ∧ (signBytesHRS tagSigner none corruptedRecord 5 2 2 (some [9])).out
        = .panic "privVal: LastSignature is nil but LastSignBytes is not!" := by
  decide

/-- C5, amended: for a record in which `LastSignature` is present whenever
`LastSignBytes` is, a request at the recorded coordinate whose message differs in
content from `LastSignBytes` returns no signature and the error "Step regression";
the record is unchanged and nothing is written. -/
theorem C5_conflicting_message (Sign : Bytes → Signature) (fsErr : Option String)
    (pv : PrivValidator) (height round step : Int) (signBytes : Bytes)
    (hhrs : pv.hrs = (height, round, step))
    (hwf : pv.LastSignBytes ≠ none → pv.LastSignature ≠ none)
    (hne : bytesEqual pv.LastSignBytes signBytes = false) :
    signBytesHRS Sign fsErr pv height round step signBytes
      = { privVal := pv, written := [], out := .error "Step regression" } := by
  simp only [PrivValidator.hrs, Prod.mk.injEq] at hhrs
  obtain ⟨h1, h2, h3⟩ := hhrs
  unfold signBytesHRS
  by_cases hb : pv.LastSignBytes = none
  · simp [h1, h2, h3, hb]
  · simp [h1, h2, h3, hb, hwf hb, hne]

/-- Witness of C5: the message `[9]` at (5, 2, 2), where `[1, 2]` was signed. -/
theorem C5_conflicting_message_witness :
    signedRecord.hrs = (5, 2, 2)
    ∧ bytesEqual signedRecord.LastSignBytes (some [9]) = false
    ∧ signBytesHRS tagSigner none signedRecord 5 2 2 (some [9])
      = { privVal := signedRecord, written := [], out := .error "Step regression" } :=
  ⟨by decide, by decide,
    C5_conflicting_message tagSigner none signedRecord 5 2 2 (some [9])
      (by decide) (by decide) (by decide)⟩

/-! ## The signing record: sequences of calls -/

theorem hrsLt_irrefl (a : Int × Int × Int) : ¬ hrsLt a a := by
  unfold hrsLt
  omega

theorem hrsLt_trans {a b c : Int × Int × Int} (hab : hrsLt a b) (hbc : hrsLt b c) :
    hrsLt a c := by
  unfold hrsLt at *
  omega

/-- A request below the recorded coordinate is refused with an error. -/
theorem signBytesHRS_of_request_lt (Sign : Bytes → Signature) (fsErr : Option String)
    (pv : PrivValidator) (height round step : Int) (signBytes : Bytes)
    (h : hrsLt (height, round, step) pv.hrs) :
    ∃ msg, signBytesHRS Sign fsErr pv height round step signBytes
      = { privVal := pv, written := [], out := .error msg } := by
  simp only [hrsLt, PrivValidator.hrs] at h
  unfold signBytesHRS
  rcases h with h | ⟨h1, h | ⟨h2, h3⟩⟩
  · exact ⟨"Height regression", by simp [h]⟩
  · exact ⟨"Round regression", by simp [h1, h]⟩
  · exact ⟨"Step regression", by simp [h1, h2, h3]⟩

/-- The two ways a call can end: on the checking path the record is unchanged and a
returned signature is the replay of `LastSignature` at the recorded coordinate; on the
signing path the request is strictly above the recorded coordinate and the record
holds the request. -/
theorem signBytesHRS_cases (Sign : Bytes → Signature) (fsErr : Option String)
    (pv : PrivValidator) (height round step : Int) (signBytes : Bytes) :
    ((signBytesHRS Sign fsErr pv height round step signBytes).privVal = pv
      ∧ ∀ sig, (signBytesHRS Sign fsErr pv height round step signBytes).out = .ok sig →
          pv.hrs = (height, round, step)
          ∧ bytesEqual pv.LastSignBytes signBytes = true ∧ sig = pv.LastSignature)
    ∨ (hrsLt pv.hrs (height, round, step)
      ∧ (signBytesHRS Sign fsErr pv height round step signBytes).privVal
          = { pv with
              LastHeight := height, LastRound := round, LastStep := step,
              LastSignature := Sign signBytes, LastSignBytes := signBytes }
      ∧ ∀ sig, (signBytesHRS Sign fsErr pv height round step signBytes).out = .ok sig →
          sig = Sign signBytes) := by
  by_cases hlt : hrsLt pv.hrs (height, round, step)
  · right
    refine ⟨hlt, ?_⟩
    rw [signBytesHRS_of_hrsLt Sign fsErr pv height round step signBytes hlt]
    unfold signAndSave
    constructor
    · dsimp only
      split <;> rfl
    · intro sig
      dsimp only
      split
      · intro h; cases h
      · intro h; injection h with h; exact h.symm
  · left
    simp only [hrsLt, PrivValidator.hrs] at hlt
    unfold signBytesHRS
    by_cases h1 : pv.LastHeight > height
    · simp [h1]
    by_cases h2 : pv.LastHeight = height
    swap
    · omega
    by_cases h3 : pv.LastRound > round
    · simp [h1, h2, h3]
    by_cases h4 : pv.LastRound = round
    swap
    · omega
    by_cases h5 : pv.LastStep > step
    · simp [h2, h4, h5]
    by_cases h6 : pv.LastStep = step
    swap
    · omega
    subst h2 h4 h6
    by_cases h7 : pv.LastSignBytes = none
    · simp [h7]
    by_cases h8 : pv.LastSignature = none
    · simp [h7, h8]
    by_cases h9 : bytesEqual pv.LastSignBytes signBytes = true
    · simp [h7, h8, h9, PrivValidator.hrs]
    · simp [h7, h8, h9]

/-- A call never lowers the recorded coordinate, and changes the record only by raising
the coordinate strictly. -/
theorem signBytesHRS_same_or_lt (Sign : Bytes → Signature) (fsErr : Option String)
    (pv : PrivValidator) (height round step : Int) (signBytes : Bytes) :
    (signBytesHRS Sign fsErr pv height round step signBytes).privVal = pv
    ∨ hrsLt pv.hrs (signBytesHRS Sign fsErr pv height round step signBytes).privVal.hrs := by
  rcases signBytesHRS_cases Sign fsErr pv height round step signBytes with h | ⟨h1, h2, _⟩
  · exact Or.inl h.1
  · right
    rw [h2]
    exact h1

/-- After a call that returned a signature, the record is at the requested coordinate,
holds a message of the same content and the returned signature. -/
theorem signBytesHRS_ok_record (Sign : Bytes → Signature) (fsErr : Option String)
    (pv : PrivValidator) (height round step : Int) (signBytes : Bytes) (sig : Signature)
    (hok : (signBytesHRS Sign fsErr pv height round step signBytes).out = .ok sig) :
    (signBytesHRS Sign fsErr pv height round step signBytes).privVal.hrs
        = (height, round, step)
    ∧ bytesEqual (signBytesHRS Sign fsErr pv height round step signBytes).privVal.LastSignBytes
        signBytes = true
    ∧ sig = (signBytesHRS Sign fsErr pv height round step signBytes).privVal.LastSignature := by
  rcases signBytesHRS_cases Sign fsErr pv height round step signBytes with h | ⟨_, h2, h3⟩
  · rw [h.1]
    exact h.2 sig hok
  · rw [h2]
    exact ⟨rfl, by simp [bytesEqual], h3 sig hok⟩

/-- A request below the recorded coordinate returns no signature, however many calls
come first. -/
theorem runCalls_no_ok_below (Sign : Bytes → Signature) :
    ∀ (cs : List Call) (pv : PrivValidator) (j : Nat) (cj : Call) (rj : SignResult),
      cs[j]? = some cj → (runCalls Sign pv cs)[j]? = some rj →
      hrsLt cj.hrs pv.hrs → ∀ sig, rj.out ≠ .ok sig := by
  intro cs
  induction cs with
  | nil => intro pv j cj rj hc; simp at hc
  | cons c cs ih =>
    intro pv j cj rj hc hr hlt sig
    cases j with
    | zero =>
      simp only [List.getElem?_cons_zero, Option.some.injEq] at hc
      subst hc
      simp only [runCalls, List.getElem?_cons_zero, Option.some.injEq] at hr
      subst hr
      obtain ⟨msg, hmsg⟩ :=
        signBytesHRS_of_request_lt Sign c.fsErr pv c.height c.round c.step c.signBytes hlt
      rw [hmsg]
      simp
    | succ j =>
      simp only [List.getElem?_cons_succ] at hc
      simp only [runCalls, List.getElem?_cons_succ] at hr
      refine ih _ j cj rj hc hr ?_ sig
      rcases signBytesHRS_same_or_lt Sign c.fsErr pv c.height c.round c.step c.signBytes
        with h | h
      · rw [h]; exact hlt
      · exact hrsLt_trans hlt h

/-- A call at the recorded coordinate that returns a signature, however many calls come
first, replays the recorded signature for a message of the recorded content. -/
theorem runCalls_ok_at_recorded (Sign : Bytes → Signature) :
    ∀ (cs : List Call) (pv : PrivValidator) (j : Nat) (cj : Call) (rj : SignResult)
      (sj : Signature),
      cs[j]? = some cj → (runCalls Sign pv cs)[j]? = some rj →
      cj.hrs = pv.hrs → rj.out = .ok sj →
      bytesEqual pv.LastSignBytes cj.signBytes = true ∧ sj = pv.LastSignature := by
  intro cs
  induction cs with
  | nil => intro pv j cj rj sj hc; simp at hc
  | cons c cs ih =>
    intro pv j cj rj sj hc hr hhrs hok
    cases j with
    | zero =>
      simp only [List.getElem?_cons_zero, Option.some.injEq] at hc
      subst hc
      simp only [runCalls, List.getElem?_cons_zero, Option.some.injEq] at hr
      subst hr
      rcases signBytesHRS_cases Sign c.fsErr pv c.height c.round c.step c.signBytes
        with h | ⟨h1, _, _⟩
      · exact (h.2 sj hok).2
      · exfalso
        have h2 : (c.height, c.round, c.step) = pv.hrs := hhrs
        rw [h2] at h1
        exact hrsLt_irrefl _ h1
    | succ j =>
      simp only [List.getElem?_cons_succ] at hc
      simp only [runCalls, List.getElem?_cons_succ] at hr
      rcases signBytesHRS_same_or_lt Sign c.fsErr pv c.height c.round c.step c.signBytes
        with h | h
      · rw [h] at hr
        exact ih pv j cj rj sj hc hr hhrs hok
      · exfalso
        exact runCalls_no_ok_below Sign cs _ j cj rj hc hr (hhrs ▸ h) sj hok

/-- No equivocation, for an earlier and a later call. -/
theorem runCalls_no_equivocation_of_lt (Sign : Bytes → Signature) :
    ∀ (cs : List Call) (pv : PrivValidator) (i j : Nat) (ci cj : Call)
      (ri rj : SignResult) (si sj : Signature),
      i < j → cs[i]? = some ci → cs[j]? = some cj →
      (runCalls Sign pv cs)[i]? = some ri → (runCalls Sign pv cs)[j]? = some rj →
      ri.out = .ok si → rj.out = .ok sj → ci.hrs = cj.hrs →
      ci.signBytes.getD [] = cj.signBytes.getD [] ∧ si = sj := by
  intro cs
  induction cs with
  | nil => intro pv i j ci cj ri rj si sj _ hc; simp at hc
  | cons c cs ih =>
    intro pv i j ci cj ri rj si sj hij hci hcj hri hrj hoi hoj hhrs
    cases j with
    | zero => omega
    | succ j =>
      simp only [List.getElem?_cons_succ] at hcj
      simp only [runCalls, List.getElem?_cons_succ] at hrj
      cases i with
      | zero =>
        simp only [List.getElem?_cons_zero, Option.some.injEq] at hci
        subst hci
        simp only [runCalls, List.getElem?_cons_zero, Option.some.injEq] at hri
        subst hri
        obtain ⟨h1, h2, h3⟩ :=
          signBytesHRS_ok_record Sign c.fsErr pv c.height c.round c.step c.signBytes si hoi
        have hhrs2 : cj.hrs
            = (signBytesHRS Sign c.fsErr pv c.height c.round c.step c.signBytes).privVal.hrs := by
          rw [h1, ← hhrs]; rfl
        obtain ⟨h4, h5⟩ := runCalls_ok_at_recorded Sign cs _ j cj rj sj hcj hrj hhrs2 hoj
        simp only [bytesEqual, beq_iff_eq] at h2 h4
        exact ⟨h2.symm.trans h4, h3.trans h5.symm⟩
      | succ i =>
        simp only [List.getElem?_cons_succ] at hci
        simp only [runCalls, List.getElem?_cons_succ] at hri
        exact ih _ i j ci cj ri rj si sj (by omega) hci hcj hri hrj hoi hoj hhrs

/-- Along a run, each record is at a coordinate at or above the one before it. -/
theorem recordTrace_step_le (Sign : Bytes → Signature) :
    ∀ (cs : List Call) (pv : PrivValidator) (i : Nat) (before after : PrivValidator),
      (recordTrace Sign pv cs)[i]? = some before →
      (recordTrace Sign pv cs)[i + 1]? = some after →
      hrsLe before.hrs after.hrs := by
  intro cs
  induction cs with
  | nil => intro pv i before after _ h; simp [recordTrace, runCalls] at h
  | cons c cs ih =>
    intro pv i before after hb ha
    cases i with
    | zero =>
      simp only [recordTrace, runCalls, List.map_cons, List.getElem?_cons_zero,
        List.getElem?_cons_succ, Option.some.injEq] at hb ha
      subst hb ha
      rcases signBytesHRS_same_or_lt Sign c.fsErr pv c.height c.round c.step c.signBytes
        with h | h
      · exact Or.inr (by rw [h])
      · exact Or.inl h
    | succ i =>
      simp only [recordTrace, runCalls, List.map_cons, List.getElem?_cons_succ] at hb ha
      exact ih _ i before after (by simpa [recordTrace] using hb)
        (by simpa [recordTrace] using ha)

/-- C6: along every finite sequence of `signBytesHRS` calls from every initial record,
accepted, refused or panicking, the recorded (height, round, step) after each call
is lexicographically at or above the one before that call.  Entry `i` of the record
trace is the record before call `i`, entry `i + 1` the record after it. -/
theorem C6_recorded_hrs_monotone (Sign : Bytes → Signature) (pv : PrivValidator)
    (cs : List Call) (i : Nat) (before after : PrivValidator)
    (hb : (recordTrace Sign pv cs)[i]? = some before)
    (ha : (recordTrace Sign pv cs)[i + 1]? = some after) :
    hrsLe before.hrs after.hrs :=
  recordTrace_step_le Sign cs pv i before after hb ha

/-- Witness of C6: call 2 of the example run raises the record from (1, 0, 1) to
(1, 0, 2). -/
theorem C6_recorded_hrs_monotone_witness :
    hrsLe
      ({ LastHeight := 1, LastRound := 0, LastStep := 1, LastSignature := some [7, 1],
         LastSignBytes := some [1], filePath := "priv_validator.json" } : PrivValidator).hrs
      ({ LastHeight := 1, LastRound := 0, LastStep := 2, LastSignature := some [7, 3],
         LastSignBytes := some [3], filePath := "priv_validator.json" } : PrivValidator).hrs :=
  C6_recorded_hrs_monotone tagSigner genRecordWithFile exampleCalls 2 _ _
    (by decide) (by decide)

/-- C7: no equivocation.  Along every finite sequence of `signBytesHRS` calls from every
initial record, two calls that both return a signature without error at the same
(height, round, step) have messages of equal content and return the same signature. -/
theorem C7_no_equivocation (Sign : Bytes → Signature) (pv : PrivValidator)
    (cs : List Call) (i j : Nat) (ci cj : Call) (ri rj : SignResult) (si sj : Signature)
    (hci : cs[i]? = some ci) (hcj : cs[j]? = some cj)
    (hri : (runCalls Sign pv cs)[i]? = some ri) (hrj : (runCalls Sign pv cs)[j]? = some rj)
    (hoi : ri.out = .ok si) (hoj : rj.out = .ok sj) (hhrs : ci.hrs = cj.hrs) :
    ci.signBytes.getD [] = cj.signBytes.getD [] ∧ si = sj := by
  rcases Nat.lt_trichotomy i j with h | h | h
  · exact runCalls_no_equivocation_of_lt Sign cs pv i j ci cj ri rj si sj h
      hci hcj hri hrj hoi hoj hhrs
  · subst h
    rw [hci] at hcj
    rw [hri] at hrj
    injection hcj with hcj
    injection hrj with hrj
    subst hcj hrj
    rw [hoi] at hoj
    injection hoj with hoj
    exact ⟨rfl, hoj⟩
  · obtain ⟨h1, h2⟩ := runCalls_no_equivocation_of_lt Sign cs pv j i cj ci rj ri sj si h
      hcj hci hrj hri hoj hoi hhrs.symm
    exact ⟨h1.symm, h2.symm⟩

/-- Witness of C7: calls 2 and 4 of the example run both return a signature at
(1, 0, 2), for the same message `[3]`, and the signature is the same. -/
theorem C7_no_equivocation_witness :
    ((runCalls tagSigner genRecordWithFile exampleCalls)[2]?
        = some { privVal := prevoteRecord,
                 written := [("priv_validator.json", prevoteRecord)],
                 out := .ok (some [7, 3]) })
    ∧ ((runCalls tagSigner genRecordWithFile exampleCalls)[4]?
        = some { privVal := prevoteRecord, written := [], out := .ok (some [7, 3]) })
    ∧ ((some [3] : Bytes).getD [] = (some [3] : Bytes).getD []
      ∧ (some [7, 3] : Signature) = some [7, 3]) :=
  ⟨by decide, by decide,
    C7_no_equivocation tagSigner genRecordWithFile exampleCalls 2 4
      { height := 1, round := 0, step := 2, signBytes := some [3], fsErr := none }
      { height := 1, round := 0, step := 2, signBytes := some [3], fsErr := none }
      { privVal := prevoteRecord, written := [("priv_validator.json", prevoteRecord)],
        out := .ok (some [7, 3]) }
      { privVal := prevoteRecord, written := [], out := .ok (some [7, 3]) }
      (some [7, 3]) (some [7, 3])
      (by decide) (by decide) (by decide) (by decide) rfl rfl rfl⟩

/-! ## The rotation step -/

/-- In a strictly descending list, `find?` returns the largest entry that passes the
test, and returns nothing only when no entry passes. -/
theorem find?_descending (p : Nat → Bool) :
    ∀ d : List Nat, d.Pairwise (fun a b => b < a) →
      (∀ x, d.find? p = some x → x ∈ d ∧ p x = true ∧ ∀ y ∈ d, p y = true → y ≤ x)
      ∧ (d.find? p = none → ∀ y ∈ d, p y = false) := by
  intro d
  induction d with
  | nil => intro _; simp
  | cons a d ih =>
    intro hd
    rw [List.pairwise_cons] at hd
    obtain ⟨ih1, ih2⟩ := ih hd.2
    by_cases hpa : p a = true
    · constructor
      · intro x hx
        simp only [List.find?_cons, hpa, Option.some.injEq] at hx
        subst hx
        refine ⟨List.mem_cons_self _ _, hpa, ?_⟩
        intro y hy _
        rcases List.mem_cons.1 hy with h | h
        · exact le_of_eq h
        · exact le_of_lt (hd.1 y h)
      · intro h
        simp [List.find?_cons, hpa] at h
    · have hpa2 : p a = false := by simpa using hpa
      constructor
      · intro x hx
        simp only [List.find?_cons, hpa2] at hx
        obtain ⟨h1, h2, h3⟩ := ih1 x hx
        refine ⟨List.mem_cons_of_mem _ h1, h2, ?_⟩
        intro y hy hpy
        rcases List.mem_cons.1 hy with h | h
        · rw [h, hpa2] at hpy; cases hpy
        · exact h3 y h hpy
      · intro h
        simp only [List.find?_cons, hpa2] at h
        intro y hy
        rcases List.mem_cons.1 hy with h' | h'
        · rw [h']; exact hpa2
        · exact ih2 h y h'

/-- The table is strictly increasing in storage order. -/
theorem primeArr_increasing : primeArr.Pairwise (fun a b => a < b) := by
  decide

/-- The reverse scan visits the table in strictly descending order. -/
theorem primeArr_reverse_descending : primeArr.reverse.Pairwise (fun a b => b < a) := by
  decide

/-- What `pickLongStepOf` returns for at least two validators: the largest table entry
below the target that does not divide the block count, or 1 when there is none. -/
theorem pickLongStepOf_largest (bc n target : Nat) (hn : 1 < n)
    (ht : target = if 3 < n then bc / (n / 3) else bc / n) :
    ((∃ p ∈ primeArr, p < target ∧ bc % p ≠ 0) →
      pickLongStepOf bc n ∈ primeArr ∧ pickLongStepOf bc n < target
      ∧ bc % pickLongStepOf bc n ≠ 0
      ∧ ∀ q ∈ primeArr, q < target → bc % q ≠ 0 → q ≤ pickLongStepOf bc n)
    ∧ ((¬ ∃ p ∈ primeArr, p < target ∧ bc % p ≠ 0) → pickLongStepOf bc n = 1) := by
  obtain ⟨h1, h2⟩ := find?_descending
    (fun prime => decide (target > prime) && decide (bc % prime ≠ 0))
    primeArr.reverse primeArr_reverse_descending
  have hdef : pickLongStepOf bc n
      = match primeArr.reverse.find?
          (fun prime => decide (target > prime) && decide (bc % prime ≠ 0)) with
        | some prime => prime
        | none => 1 := by
    unfold pickLongStepOf
    rw [if_pos hn, ht]
  cases hf : primeArr.reverse.find?
      (fun prime => decide (target > prime) && decide (bc % prime ≠ 0)) with
  | none =>
    rw [hf] at hdef
    have hnone := h2 hf
    constructor
    · rintro ⟨p, hp, hlt, hmod⟩
      have := hnone p (List.mem_reverse.2 hp)
      simp [hlt, hmod] at this
    · intro _
      exact hdef
  | some x =>
    rw [hf] at hdef
    obtain ⟨hx1, hx2, hx3⟩ := h1 x hf
    simp only [gt_iff_lt, ne_eq, Bool.and_eq_true, decide_eq_true_eq] at hx2
    constructor
    · intro _
      rw [hdef]
      refine ⟨List.mem_reverse.1 hx1, hx2.1, hx2.2, ?_⟩
      intro q hq hlt hmod
      exact hx3 q (List.mem_reverse.2 hq) (by simp [hlt, hmod])
    · intro hno
      exact absurd ⟨x, List.mem_reverse.1 hx1, hx2.1, hx2.2⟩ hno

/-- The `uint64` block count is the exact one when the exact one fits in 64 bits. -/
theorem epochBlockCount_exact (e : Epoch) (hse : e.StartBlock ≤ e.EndBlock)
    (hfit : e.EndBlock - e.StartBlock + 1 < 2 ^ 64) :
    epochBlockCount e = e.EndBlock - e.StartBlock + 1 := by
  unfold epochBlockCount
  omega

/-- C8, as stated, fails: for the epoch 0 to 2 ^ 64 - 1 the exact block count is 2 ^ 64,
and with two validators the table entry 134217689 is below the target 2 ^ 64 / 2 and
does not divide 2 ^ 64; yet the 64-bit block count wraps to 0 and `pickLongStep`
returns 1. -/
theorem C8_counterexample :
    fullRangeEpoch.StartBlock ≤ fullRangeEpoch.EndBlock
    ∧ fullRangeEpoch.EndBlock < 2 ^ 64
    ∧ (134217689 ∈ primeArr
      ∧ 134217689 < (fullRangeEpoch.EndBlock - fullRangeEpoch.StartBlock + 1) / 2
      ∧ (fullRangeEpoch.EndBlock - fullRangeEpoch.StartBlock + 1) % 134217689 ≠ 0)
    ∧ pickLongStep (engineAt fullRangeEpoch) (fourValidators.take 2) = 1 := by
  decide

/-- C8, amended: for every epoch with startBlock <= endBlock whose block count
blockCount = endBlock - startBlock + 1 fits in 64 bits, and every validator list of
length n, `pickLongStep` returns 1 when n <= 1; otherwise, with
target = blockCount / (n / 3) when n > 3 and target = blockCount / n else, it returns
the largest table entry p with p < target and blockCount mod p != 0, or 1 when no
table entry qualifies. -/
theorem C8_pickLongStep_largest_prime (cs : ConsensusState) (validators : List Validator)
    (blockCount target : Nat)
    (hse : cs.Epoch.StartBlock ≤ cs.Epoch.EndBlock)
    (hbc : blockCount = cs.Epoch.EndBlock - cs.Epoch.StartBlock + 1)
    (hfit : blockCount < 2 ^ 64)
    (ht : target = if 3 < validators.length then blockCount / (validators.length / 3)
      else blockCount / validators.length) :
    (validators.length ≤ 1 → pickLongStep cs validators = 1)
    ∧ (1 < validators.length →
      ((∃ p ∈ primeArr, p < target ∧ blockCount % p ≠ 0) →
        pickLongStep cs validators ∈ primeArr ∧ pickLongStep cs validators < target
        ∧ blockCount % pickLongStep cs validators ≠ 0
        ∧ ∀ q ∈ primeArr, q < target → blockCount % q ≠ 0 →
            q ≤ pickLongStep cs validators)
      ∧ ((¬ ∃ p ∈ primeArr, p < target ∧ blockCount % p ≠ 0) →
        pickLongStep cs validators = 1)) := by
  have hcount : epochBlockCount cs.Epoch = blockCount := by
    rw [hbc]
    exact epochBlockCount_exact cs.Epoch hse (hbc ▸ hfit)
  unfold pickLongStep
  rw [hcount]
  constructor
  · intro hn
    unfold pickLongStepOf
    rw [if_neg (by omega)]
  · intro hn
    exact pickLongStepOf_largest blockCount validators.length target hn ht

/-- Witness of C8: 100 blocks and 4 validators give the target 100 and the step 61, a
table entry below 100 that does not divide 100, and no smaller than the entry 31. -/
theorem C8_pickLongStep_largest_prime_witness :
    pickLongStep (engineAt hundredBlocks) fourValidators = 61
    ∧ pickLongStep (engineAt hundredBlocks) fourValidators ∈ primeArr
    ∧ pickLongStep (engineAt hundredBlocks) fourValidators < 100
    ∧ 100 % pickLongStep (engineAt hundredBlocks) fourValidators ≠ 0
    ∧ 31 ≤ pickLongStep (engineAt hundredBlocks) fourValidators :=
  have h := ((C8_pickLongStep_largest_prime (engineAt hundredBlocks) fourValidators 100 100
      (by decide) (by decide) (by decide) (by decide)).2 (by decide)).1
      ⟨61, by decide, by decide, by decide⟩
  ⟨by decide, h.1, h.2.1, h.2.2.1, h.2.2.2 31 (by decide) (by decide) (by decide)⟩

/-- A successful trial division from `d` excludes every divisor `m` with `d ≤ m` and
`m * m ≤ n`. -/
theorem trialDivision_sound (n : Nat) :
    ∀ (fuel d : Nat), trialDivision n fuel d = true →
      ∀ m, d ≤ m → m * m ≤ n → ¬ m ∣ n := by
  intro fuel
  induction fuel with
  | zero =>
    intro d h m hdm hmm _
    simp only [trialDivision, decide_eq_true_eq] at h
    have : d * d ≤ m * m := Nat.mul_le_mul hdm hdm
    omega
  | succ fuel ih =>
    intro d h m hdm hmm hdiv
    unfold trialDivision at h
    by_cases h1 : n < d * d
    · have : d * d ≤ m * m := Nat.mul_le_mul hdm hdm
      omega
    · rw [if_neg h1] at h
      by_cases h2 : n % d = 0
      · rw [if_pos h2] at h; cases h
      · rw [if_neg h2] at h
        rcases Nat.eq_or_lt_of_le hdm with heq | hlt
        · subst heq
          exact h2 (Nat.mod_eq_zero_of_dvd hdiv)
        · exact ih (d + 1) h m hlt hmm hdiv

/-- A number from 2 on that passes trial division from 2 is prime. -/
theorem prime_of_trialDivision (n fuel : Nat) (h2 : 2 ≤ n)
    (h : trialDivision n fuel 2 = true) : Nat.Prime n := by
  rw [Nat.prime_def_le_sqrt]
  exact ⟨h2, fun m hm hsq => trialDivision_sound n fuel 2 h m hm (Nat.le_sqrt.1 hsq)⟩

/-- Every entry of the table is at least 2 and passes trial division. -/
theorem primeArr_trialDivision :
    primeArr.all (fun p => decide (2 ≤ p) && trialDivision p 11586 2) = true := by
  decide!

/-- C9: the table scanned by `pickLongStep` has 27 entries, every entry is a prime
number, and the entries are strictly increasing in storage order, so that the scan
from the last entry down visits them in strictly descending order. -/
theorem C9_primeArr_primes_increasing :
    primeArr.length = 27
    ∧ (∀ p ∈ primeArr, Nat.Prime p)
    ∧ primeArr.Pairwise (fun a b => a < b)
    ∧ primeArr.reverse.Pairwise (fun a b => b < a) := by
  refine ⟨rfl, ?_, primeArr_increasing, primeArr_reverse_descending⟩
  intro p hp
  have h := List.all_eq_true.1 primeArr_trialDivision p hp
  simp only [Bool.and_eq_true, decide_eq_true_eq] at h
  exact prime_of_trialDivision p 11586 h.1 h.2

/-- Witness of C9: the last entry, 134217689, is prime. -/
theorem C9_primeArr_primes_increasing_witness : Nat.Prime 134217689 :=
  C9_primeArr_primes_increasing.2.1 134217689 (by decide)

/-! ## The per-height reset -/

/-- The loop that adds the voting powers up yields their sum. -/
theorem foldl_votingPower (vals : List Validator) (acc : Int) :
    vals.foldl (fun acc validator => acc + validator.VotingPower) acc
      = acc + (vals.map (fun v => v.VotingPower)).sum := by
  induction vals generalizing acc with
  | nil => simp
  | cons v vs ih => simp [List.foldl_cons, ih, add_assoc]

theorem sumVotingPower_eq_sum (vals : List Validator) :
    sumVotingPower vals = (vals.map (fun v => v.VotingPower)).sum := by
  unfold sumVotingPower
  rw [foldl_votingPower]
  simp

/-- C10: after `UpdateToState`, the engine's `totalVotingPower` is the exact sum, over
the unbounded integers, of the voting powers of the validators that
`state.GetValidators()` returned, whether the call ran to its end or panicked in the
division of the power per block; it is 0 for an empty validator set.  The method
`newStep`, which runs last, is taken not to write the field. -/
theorem C10_totalVotingPower_exact_sum (env : Env) (cs0 : ConsensusState) (state : State)
    (hframe : ∀ cs, (env.newStep cs).totalVotingPower = cs.totalVotingPower) :
    (UpdateToState env cs0 state).cs.totalVotingPower
        = ((env.GetValidators state).Validators.map (fun v => v.VotingPower)).sum
    ∧ ((env.GetValidators state).Validators = [] →
        (UpdateToState env cs0 state).cs.totalVotingPower = 0) := by
  have key : (UpdateToState env cs0 state).cs.totalVotingPower
      = ((env.GetValidators state).Validators.map (fun v => v.VotingPower)).sum := by
    unfold UpdateToState
    dsimp only
    split
    · simp [resetFromState, sumVotingPower_eq_sum]
    · simp [hframe, resetFromState, sumVotingPower_eq_sum]
  refine ⟨key, ?_⟩
  intro hnil
  rw [key, hnil]
  rfl

/-- Witness of C10: powers 2 ^ 64 and 2 ^ 64 + 5 add up to 2 ^ 65 + 5. -/
theorem C10_totalVotingPower_exact_sum_witness :
    (UpdateToState exampleEnv (engineAt hundredBlocks) exampleState).cs.totalVotingPower
      = 2 ^ 65 + 5 :=
  (C10_totalVotingPower_exact_sum exampleEnv (engineAt hundredBlocks) exampleState
    (fun _ => rfl)).1.trans (by decide)

/-! ## The signing record: fatal failures and refusals -/

/-- The signing path never returns an error: it returns the signature or panics. -/
theorem signAndSave_out_ne_error (Sign : Bytes → Signature) (fsErr : Option String)
    (pv : PrivValidator) (height round step : Int) (signBytes : Bytes) (msg : String) :
    (signAndSave Sign fsErr pv height round step signBytes).out ≠ .error msg := by
  unfold signAndSave
  dsimp only
  split <;> simp

/-- Off the signing path the record is unchanged and nothing is written. -/
theorem signBytesHRS_of_not_hrsLt (Sign : Bytes → Signature) (fsErr : Option String)
    (pv : PrivValidator) (height round step : Int) (signBytes : Bytes)
    (hlt : ¬ hrsLt pv.hrs (height, round, step)) :
    (signBytesHRS Sign fsErr pv height round step signBytes).privVal = pv
    ∧ (signBytesHRS Sign fsErr pv height round step signBytes).written = [] := by
  simp only [hrsLt, PrivValidator.hrs] at hlt
  unfold signBytesHRS
  by_cases h1 : pv.LastHeight > height
  · simp [h1]
  by_cases h2 : pv.LastHeight = height
  swap
  · omega
  by_cases h3 : pv.LastRound > round
  · simp [h1, h2, h3]
  by_cases h4 : pv.LastRound = round
  swap
  · omega
  by_cases h5 : pv.LastStep > step
  · simp [h2, h4, h5]
  by_cases h6 : pv.LastStep = step
  swap
  · omega
  subst h2 h4 h6
  by_cases h7 : pv.LastSignBytes = none
  · simp [h7]
  by_cases h8 : pv.LastSignature = none
  · simp [h7, h8]
  by_cases h9 : bytesEqual pv.LastSignBytes signBytes = true
  · simp [h7, h8, h9]
  · simp [h7, h8, h9]

/-- C15: with no file configured, `save` and `Save` panic and write nothing, whatever
the file system would answer, and `signBytesHRS` called with a strictly greater
coordinate panics in `save`: no signature is returned and nothing is written. -/
theorem C15_no_file_is_fatal (Sign : Bytes → Signature) (fsErr : Option String)
    (pv : PrivValidator) (height round step : Int) (signBytes : Bytes)
    (hfile : pv.filePath = "") :
    save fsErr pv
        = { written := [], panicked := some "Cannot save PrivValidator: filePath not set" }
    ∧ Save fsErr pv
        = { written := [], panicked := some "Cannot save PrivValidator: filePath not set" }
    ∧ (hrsLt pv.hrs (height, round, step) →
        (signBytesHRS Sign fsErr pv height round step signBytes).out
            = .panic "Cannot save PrivValidator: filePath not set"
        ∧ (signBytesHRS Sign fsErr pv height round step signBytes).written = []) := by
  have hsave : save fsErr pv
      = { written := [], panicked := some "Cannot save PrivValidator: filePath not set" } := by
    simp [save, hfile]
  refine ⟨hsave, hsave, ?_⟩
  intro hlt
  rw [signBytesHRS_of_hrsLt Sign fsErr pv height round step signBytes hlt]
  simp [signAndSave, save, hfile]

/-- Witness of C15: the record of a freshly generated validator, asked to sign at
(1, 0, 1). -/
theorem C15_no_file_is_fatal_witness :
    genRecord.filePath = ""
    ∧ Save none genRecord
        = { written := [], panicked := some "Cannot save PrivValidator: filePath not set" }
    ∧ (signBytesHRS tagSigner none genRecord 1 0 1 (some [1, 2])).out
        = .panic "Cannot save PrivValidator: filePath not set" :=
  ⟨rfl,
    (C15_no_file_is_fatal tagSigner none genRecord 1 0 1 (some [1, 2]) rfl).2.1,
    ((C15_no_file_is_fatal tagSigner none genRecord 1 0 1 (some [1, 2]) rfl).2.2
      (by decide)).1⟩

/-- C16, as stated, fails: for a record whose `LastSignBytes` is present while
`LastSignature` is nil, a request below the recorded coordinate returns the error
"Height regression", and a request above it is signed and returns the signature. -/
theorem C16_counterexample :
    corruptedRecord.LastSignBytes ≠ none ∧ corruptedRecord.LastSignature = none
    ∧ (signBytesHRS tagSigner none corruptedRecord 4 0 1 (some [9])).out
        = .error "Height regression"
    ∧ (signBytesHRS tagSigner none corruptedRecord 6 0 1 (some [9])).out
        = .ok (some [7, 9]) := by
  decide

/-- C16, amended: for a record whose `LastSignBytes` is present while `LastSignature`
is nil, every call at the recorded (height, round, step) panics, whatever the message:
it returns neither a signature nor an error, and leaves the record as it is. -/
theorem C16_corrupted_record_panics (Sign : Bytes → Signature) (fsErr : Option String)
    (pv : PrivValidator) (height round step : Int) (signBytes : Bytes)
    (hb : pv.LastSignBytes ≠ none) (hs : pv.LastSignature = none)
    (hhrs : pv.hrs = (height, round, step)) :
    signBytesHRS Sign fsErr pv height round step signBytes
      = { privVal := pv, written := [],
          out := .panic "privVal: LastSignature is nil but LastSignBytes is not!" } := by
  simp only [PrivValidator.hrs, Prod.mk.injEq] at hhrs
  obtain ⟨h1, h2, h3⟩ := hhrs
  unfold signBytesHRS
  simp [h1, h2, h3, hb, hs]

/-- Witness of C16: the corrupted record at (5, 2, 2), asked for its own message. -/
theorem C16_corrupted_record_panics_witness :
    signBytesHRS tagSigner none corruptedRecord 5 2 2 (some [1, 2])
      = { privVal := corruptedRecord, written := [],
          out := .panic "privVal: LastSignature is nil but LastSignBytes is not!" } :=
  C16_corrupted_record_panics tagSigner none corruptedRecord 5 2 2 (some [1, 2])
    (by decide) (by decide) (by decide)

/-- C20: whenever `signBytesHRS` returns an error, the record, with its five fields
`LastHeight`, `LastRound`, `LastStep`, `LastSignature` and `LastSignBytes`, is
exactly as before the call and nothing has been written. -/
theorem C20_refusal_leaves_record (Sign : Bytes → Signature) (fsErr : Option String)
    (pv : PrivValidator) (height round step : Int) (signBytes : Bytes) (msg : String)
    (herr : (signBytesHRS Sign fsErr pv height round step signBytes).out = .error msg) :
    (signBytesHRS Sign fsErr pv height round step signBytes).privVal = pv
    ∧ (signBytesHRS Sign fsErr pv height round step signBytes).written = [] := by
  by_cases hlt : hrsLt pv.hrs (height, round, step)
  · rw [signBytesHRS_of_hrsLt Sign fsErr pv height round step signBytes hlt] at herr
    exact absurd herr (signAndSave_out_ne_error Sign fsErr pv height round step signBytes msg)
  · exact signBytesHRS_of_not_hrsLt Sign fsErr pv height round step signBytes hlt

/-- Witness of C20: a conflicting message at (5, 2, 2) is refused and the record that
signed `[1, 2]` there is untouched. -/
theorem C20_refusal_leaves_record_witness :
    (signBytesHRS tagSigner none signedRecord 5 2 2 (some [9])).out = .error "Step regression"
    ∧ (signBytesHRS tagSigner none signedRecord 5 2 2 (some [9])).privVal = signedRecord
    ∧ (signBytesHRS tagSigner none signedRecord 5 2 2 (some [9])).written = [] :=
  ⟨by decide,
    C20_refusal_leaves_record tagSigner none signedRecord 5 2 2 (some [9]) "Step regression"
      (by decide)⟩

/-! ## The per-height reset: height, round state, rotation step -/

/-- The engine after `UpdateToState`: the reset engine when the call panicked in the
division, and else the reset engine with the rotation step stored, after `newStep`. -/
theorem UpdateToState_cs (env : Env) (cs0 : ConsensusState) (state : State) :
    (UpdateToState env cs0 state).cs = resetFromState env (resetHeight cs0 state) state
    ∨ (UpdateToState env cs0 state).cs
        = env.newStep
            { resetFromState env (resetHeight cs0 state) state with
              pickedStep :=
                pickLongStep (resetFromState env (resetHeight cs0 state) state)
                  (env.GetValidators state).Validators } := by
  unfold UpdateToState
  dsimp only
  split
  · exact Or.inl rfl
  · exact Or.inr rfl

/-- C11, as stated, fails: for a state at the largest 64-bit height 2 ^ 64 - 1 the
engine's height after `UpdateToState` is 0, not 2 ^ 64. -/
theorem C11_counterexample :
    maxHeightState.TdmExtra.Height < 2 ^ 64
    ∧ maxHeightState.TdmExtra.Height + 1 = 2 ^ 64
    ∧ (UpdateToState exampleEnv (engineAt hundredBlocks) maxHeightState).cs.Height = 0 := by
  decide

/-- C11, amended: after `UpdateToState` the engine's height is the state's height plus 1
in 64-bit arithmetic, which is the state's height plus 1 whenever that is below
2 ^ 64; its round is 0 and its step is `RoundStepNewHeight`, whatever they were
before the call and whether the call ran to its end or panicked in the division.
The method `newStep`, which runs last, is taken not to write these three fields. -/
theorem C11_height_round_step (env : Env) (cs0 : ConsensusState) (state : State)
    (hframe : ∀ cs, (env.newStep cs).Height = cs.Height
      ∧ (env.newStep cs).Round = cs.Round ∧ (env.newStep cs).Step = cs.Step) :
    (UpdateToState env cs0 state).cs.Height = (state.TdmExtra.Height + 1) % 2 ^ 64
    ∧ (state.TdmExtra.Height + 1 < 2 ^ 64 →
        (UpdateToState env cs0 state).cs.Height = state.TdmExtra.Height + 1)
    ∧ (UpdateToState env cs0 state).cs.Round = 0
    ∧ (UpdateToState env cs0 state).cs.Step = .RoundStepNewHeight := by
  have key : (UpdateToState env cs0 state).cs.Height = (state.TdmExtra.Height + 1) % 2 ^ 64
      ∧ (UpdateToState env cs0 state).cs.Round = 0
      ∧ (UpdateToState env cs0 state).cs.Step = .RoundStepNewHeight := by
    rcases UpdateToState_cs env cs0 state with h | h
    · rw [h]
      simp [resetFromState, resetHeight, updateRoundStep, Initialize]
    · rw [h]
      obtain ⟨h1, h2, h3⟩ := hframe
        { resetFromState env (resetHeight cs0 state) state with
          pickedStep :=
            pickLongStep (resetFromState env (resetHeight cs0 state) state)
              (env.GetValidators state).Validators }
      rw [h1, h2, h3]
      simp [resetFromState, resetHeight, updateRoundStep, Initialize]
  refine ⟨key.1, ?_, key.2.1, key.2.2⟩
  intro hlt
  rw [key.1, Nat.mod_eq_of_lt hlt]

/-- Witness of C11: from the engine in the middle of height 42, round 2, a state at
height 41 leads to height 42, round 0, step `RoundStepNewHeight`. -/
theorem C11_height_round_step_witness :
    (UpdateToState exampleEnv midRoundEngine exampleState).cs.Height = 42
    ∧ (UpdateToState exampleEnv midRoundEngine exampleState).cs.Round = 0
    ∧ (UpdateToState exampleEnv midRoundEngine exampleState).cs.Step = .RoundStepNewHeight :=
  have h := C11_height_round_step exampleEnv midRoundEngine exampleState
    (fun _ => ⟨rfl, rfl, rfl⟩)
  ⟨h.2.1 (by decide), h.2.2.1, h.2.2.2⟩

/-- The rotation step that `UpdateToState` stores when it runs to its end is computed
from the block range of the epoch the engine held before the call. -/
theorem UpdateToState_pickedStep (env : Env) (cs0 : ConsensusState) (state : State)
    (hframe : ∀ cs, (env.newStep cs).pickedStep = cs.pickedStep)
    (hrun : (UpdateToState env cs0 state).panicked = none) :
    (UpdateToState env cs0 state).cs.pickedStep
      = pickLongStepOf (epochBlockCount cs0.Epoch)
          (env.GetValidators state).Validators.length := by
  unfold UpdateToState at hrun ⊢
  dsimp only at hrun ⊢
  split at hrun
  · cases hrun
  · rename_i hc
    rw [if_neg hc]
    simp [hframe, pickLongStep, resetFromState, resetHeight, updateRoundStep, Initialize]

/-- With a block count of 0 no table entry is below the target, and the step is 1. -/
theorem pickLongStepOf_zero (n : Nat) : pickLongStepOf 0 n = 1 := by
  unfold pickLongStepOf
  split
  · simp only [Nat.zero_div, ite_self]
    rfl
  · rfl

/-- When `UpdateToState` panics in the division, the block count of the state's epoch
is 0 and the rotation step is the 1 that `Initialize` stored. -/
theorem UpdateToState_panicked (env : Env) (cs0 : ConsensusState) (state : State)
    (hpanic : (UpdateToState env cs0 state).panicked ≠ none) :
    epochBlockCount state.Epoch = 0 ∧ (UpdateToState env cs0 state).cs.pickedStep = 1 := by
  unfold UpdateToState at hpanic ⊢
  dsimp only at hpanic ⊢
  split at hpanic
  · rename_i hc
    rw [if_pos hc]
    exact ⟨hc.2, by simp [resetFromState, resetHeight, updateRoundStep, Initialize]⟩
  · exact absurd rfl hpanic

/-- C12, as stated, fails: the engine holds the epoch of 100 blocks, the state carries
the epoch of 1000 blocks and two validators.  `UpdateToState` runs to its end and
stores the step 31, which is the step for 100 blocks, while the step computed from
the block range of the state's epoch is 251. -/
theorem C12_counterexample :
    (engineAt hundredBlocks).Epoch ≠ thousandState.Epoch
    ∧ (UpdateToState exampleEnv (engineAt hundredBlocks) thousandState).panicked = none
    ∧ (UpdateToState exampleEnv (engineAt hundredBlocks) thousandState).cs.pickedStep = 31
    ∧ pickLongStepOf (epochBlockCount (engineAt hundredBlocks).Epoch)
        (exampleEnv.GetValidators thousandState).Validators.length = 31
    ∧ pickLongStepOf (epochBlockCount thousandState.Epoch)
        (exampleEnv.GetValidators thousandState).Validators.length = 251 := by
  decide

/-- C12, amended: the rotation step that `UpdateToState` stores when it runs to its end
is the rotation step computed from the block range of the epoch that the engine
itself holds and the state's validators; whenever the state's epoch is the engine's
epoch, the stored step is the rotation step computed from the block range of the
state's epoch and the state's validators, whether the call ran to its end or
panicked in the division.  The method `newStep`, which runs last, is taken not to
write the field. -/
theorem C12_pickedStep_engine_epoch (env : Env) (cs0 : ConsensusState) (state : State)
    (hframe : ∀ cs, (env.newStep cs).pickedStep = cs.pickedStep) :
    ((UpdateToState env cs0 state).panicked = none →
      (UpdateToState env cs0 state).cs.pickedStep
        = pickLongStepOf (epochBlockCount cs0.Epoch)
            (env.GetValidators state).Validators.length)
    ∧ (state.Epoch = cs0.Epoch →
      (UpdateToState env cs0 state).cs.pickedStep
        = pickLongStepOf (epochBlockCount state.Epoch)
            (env.GetValidators state).Validators.length) := by
  refine ⟨UpdateToState_pickedStep env cs0 state hframe, ?_⟩
  intro hep
  by_cases hrun : (UpdateToState env cs0 state).panicked = none
  · rw [hep]
    exact UpdateToState_pickedStep env cs0 state hframe hrun
  · obtain ⟨h0, h1⟩ := UpdateToState_panicked env cs0 state hrun
    rw [h1, h0, pickLongStepOf_zero]

/-- Witness of C12: with the engine on the epoch of 100 blocks and two validators, a
state that carries the epoch of 1000 blocks and a state that carries the epoch of
100 blocks both lead to the step 31, the step for 100 blocks. -/
theorem C12_pickedStep_engine_epoch_witness :
    (UpdateToState exampleEnv (engineAt hundredBlocks) thousandState).cs.pickedStep
      = pickLongStepOf (epochBlockCount hundredBlocks) 2
    ∧ (UpdateToState exampleEnv (engineAt hundredBlocks) exampleState).cs.pickedStep
      = pickLongStepOf (epochBlockCount hundredBlocks) 2
    ∧ pickLongStepOf (epochBlockCount hundredBlocks) 2 = 31 :=
  ⟨(C12_pickedStep_engine_epoch exampleEnv (engineAt hundredBlocks) thousandState
      (fun _ => rfl)).1 (by decide),
    (C12_pickedStep_engine_epoch exampleEnv (engineAt hundredBlocks) exampleState
      (fun _ => rfl)).2 rfl,
    by decide⟩

/-- The round state after `UpdateToState`, when `newStep` writes no field of the
engine: height, round, step, proposal, lock, commit round and vote collections. -/
theorem UpdateToState_round_data (env : Env) (cs0 : ConsensusState) (state : State)
    (hframe : ∀ cs, env.newStep cs = cs) :
    (UpdateToState env cs0 state).cs.Height = (state.TdmExtra.Height + 1) % 2 ^ 64
    ∧ (UpdateToState env cs0 state).cs.Round = 0
    ∧ (UpdateToState env cs0 state).cs.Step = .RoundStepNewHeight
    ∧ (UpdateToState env cs0 state).cs.LockedRound = -1
    ∧ (UpdateToState env cs0 state).cs.LockedBlock = none
    ∧ (UpdateToState env cs0 state).cs.LockedBlockParts = none
    ∧ (UpdateToState env cs0 state).cs.CommitRound = -1
    ∧ (UpdateToState env cs0 state).cs.Proposal = none
    ∧ (UpdateToState env cs0 state).cs.ProposalBlock = none
    ∧ (UpdateToState env cs0 state).cs.proposer = none
    ∧ (UpdateToState env cs0 state).cs.Votes
        = some (NewHeightVoteSet cs0.PChainId ((state.TdmExtra.Height + 1) % 2 ^ 64)
            (env.GetValidators state))
    ∧ (UpdateToState env cs0 state).cs.VoteSignAggr
        = some (NewHeightVoteSignAggr cs0.PChainId ((state.TdmExtra.Height + 1) % 2 ^ 64)
            (env.GetValidators state)) := by
  rcases UpdateToState_cs env cs0 state with h | h
  · rw [h]
    simp [resetFromState, resetHeight, updateRoundStep, Initialize]
  · rw [h, hframe]
    simp [resetFromState, resetHeight, updateRoundStep, Initialize]

/-- C14: after `UpdateToState` the engine is unlocked (`LockedRound` is -1,
`LockedBlock` and `LockedBlockParts` are nil), `CommitRound` is -1, `Proposal`,
`ProposalBlock` and the proposer are nil, and the two vote collections are the ones
the constructors build for the new height and the state's validators, with no vote in
them.  The values are given outright: they involve the engine before the call only
through its chain id.  The method `newStep`, which runs last, is taken to write no
field of the engine. -/
theorem C14_fresh_round_data (env : Env) (cs0 : ConsensusState) (state : State)
    (hframe : ∀ cs, env.newStep cs = cs) :
    (UpdateToState env cs0 state).cs.LockedRound = -1
    ∧ (UpdateToState env cs0 state).cs.LockedBlock = none
    ∧ (UpdateToState env cs0 state).cs.LockedBlockParts = none
    ∧ (UpdateToState env cs0 state).cs.CommitRound = -1
    ∧ (UpdateToState env cs0 state).cs.Proposal = none
    ∧ (UpdateToState env cs0 state).cs.ProposalBlock = none
    ∧ (UpdateToState env cs0 state).cs.proposer = none
    ∧ (UpdateToState env cs0 state).cs.Votes
        = some (NewHeightVoteSet cs0.PChainId ((state.TdmExtra.Height + 1) % 2 ^ 64)
            (env.GetValidators state))
    ∧ (UpdateToState env cs0 state).cs.VoteSignAggr
        = some (NewHeightVoteSignAggr cs0.PChainId ((state.TdmExtra.Height + 1) % 2 ^ 64)
            (env.GetValidators state))
    ∧ (NewHeightVoteSet cs0.PChainId ((state.TdmExtra.Height + 1) % 2 ^ 64)
        (env.GetValidators state)).votes = []
    ∧ (NewHeightVoteSignAggr cs0.PChainId ((state.TdmExtra.Height + 1) % 2 ^ 64)
        (env.GetValidators state)).votes = [] := by
  obtain ⟨_, _, _, h4, h5, h6, h7, h8, h9, h10, h11, h12⟩ :=
    UpdateToState_round_data env cs0 state hframe
  exact ⟨h4, h5, h6, h7, h8, h9, h10, h11, h12, rfl, rfl⟩

/-- Witness of C14: the engine in the middle of height 42, locked in round 1 with a
proposal and a vote, is unlocked, without proposal and with empty vote collections
for height 42 after `UpdateToState`. -/
theorem C14_fresh_round_data_witness :
    midRoundEngine.LockedRound = 1 ∧ midRoundEngine.Proposal = some 7
    ∧ (UpdateToState exampleEnv midRoundEngine exampleState).cs.LockedRound = -1
    ∧ (UpdateToState exampleEnv midRoundEngine exampleState).cs.Proposal = none
    ∧ (UpdateToState exampleEnv midRoundEngine exampleState).cs.Votes
        = some { chainID := "pchain", height := 42,
                 valSet := { Validators := largeValidators }, votes := [] } :=
  have h := C14_fresh_round_data exampleEnv midRoundEngine exampleState (fun _ => rfl)
  ⟨by decide, by decide, h.1, h.2.2.2.2.1, h.2.2.2.2.2.2.2.1.trans (by decide)⟩

/-! ## Starting a new height -/

/-- C13, as stated, fails: the engine is in the middle of height 42 (round 2, step
prevote, a proposal, a lock taken in round 1, one vote collected) and the latest
committed block is block 41, so the height has already advanced.  `StartNewHeight`
runs to its end, leaves the height at 42 and resets round, step, proposal, lock and
votes. -/
theorem C13_counterexample :
    midRoundEngine.Height = exampleBackend.CurrentBlock.NumberU64 + 1
    ∧ (StartNewHeight exampleEnv exampleBackend midRoundEngine).halted = none
    ∧ (StartNewHeight exampleEnv exampleBackend midRoundEngine).cs.Height = 42
    ∧ (midRoundEngine.Round = 2
      ∧ (StartNewHeight exampleEnv exampleBackend midRoundEngine).cs.Round = 0)
    ∧ (midRoundEngine.Step = .RoundStepPrevote
      ∧ (StartNewHeight exampleEnv exampleBackend midRoundEngine).cs.Step
          = .RoundStepNewHeight)
    ∧ (midRoundEngine.Proposal = some 7
      ∧ (StartNewHeight exampleEnv exampleBackend midRoundEngine).cs.Proposal = none)
    ∧ (midRoundEngine.LockedRound = 1
      ∧ (StartNewHeight exampleEnv exampleBackend midRoundEngine).cs.LockedRound = -1)
    ∧ (midRoundEngine.LockedBlock = some 7
      ∧ (StartNewHeight exampleEnv exampleBackend midRoundEngine).cs.LockedBlock = none)
    ∧ (midRoundEngine.Votes
        = some { chainID := "pchain", height := 42,
                 valSet := { Validators := largeValidators }, votes := [(2, [1])] }
      ∧ (StartNewHeight exampleEnv exampleBackend midRoundEngine).cs.Votes
        = some { chainID := "pchain", height := 42,
                 valSet := { Validators := largeValidators }, votes := [] }) := by
  decide

/-- The engine after a `StartNewHeight` that ran to its end is the engine after
`UpdateToState`, passed through `newStep` and `scheduleRound0`. -/
theorem StartNewHeight_cs (env : Env) (b : Backend) (cs : ConsensusState)
    (hrun : (StartNewHeight env b cs).halted = none) :
    (StartNewHeight env b cs).cs
      = b.scheduleRound0 (env.newStep
          (UpdateToState env (InitState b cs cs.Epoch).cs (InitState b cs cs.Epoch).state).cs) := by
  unfold StartNewHeight at hrun ⊢
  dsimp only at hrun ⊢
  split at hrun
  · cases hrun
  · split at hrun
    · cases hrun
    · rfl

/-- When `ReconstructLastCommit` writes no field, `InitState` returns the engine it
received, and the state it returns and whether it exits depend on the chain and the
epoch only. -/
theorem InitState_frame (b : Backend) (cs : ConsensusState) (epoch : Epoch)
    (hrec : ∀ c s, b.ReconstructLastCommit c s = (c, s)) :
    (InitState b cs epoch).cs = cs
    ∧ ∀ cs1, (InitState b cs1 epoch).state = (InitState b cs epoch).state
        ∧ (InitState b cs1 epoch).exited = (InitState b cs epoch).exited := by
  unfold InitState
  cases (LoadLastTendermintExtra b).1 with
  | none =>
    dsimp only
    split <;> exact ⟨rfl, fun _ => ⟨rfl, rfl⟩⟩
  | some extra =>
    dsimp only
    simp [hrec]

/-- `StartNewHeight` runs to its end exactly when `InitState` does not exit and
`UpdateToState` does not panic. -/
theorem StartNewHeight_halted (env : Env) (b : Backend) (cs : ConsensusState) :
    (StartNewHeight env b cs).halted = none
      ↔ (InitState b cs cs.Epoch).exited = none
        ∧ (UpdateToState env (InitState b cs cs.Epoch).cs
            (InitState b cs cs.Epoch).state).panicked = none := by
  unfold StartNewHeight
  dsimp only
  split
  · rename_i msg hi
    simp [hi]
  · rename_i hi
    split
    · rename_i msg hu
      simp [hu]
    · rename_i hu
      simp [hi, hu]

/-- Whether `UpdateToState` panics depends on the state and its validators only. -/
theorem UpdateToState_panicked_congr (env env2 : Env) (cs0 cs1 : ConsensusState)
    (state : State) (hval : env2.GetValidators = env.GetValidators) :
    (UpdateToState env2 cs1 state).panicked = (UpdateToState env cs0 state).panicked := by
  unfold UpdateToState
  simp only [resetFromState, hval]
  split <;> rfl

/-- The epoch and the chain id of the engine are left as they are by `UpdateToState`,
when `newStep` writes no field of the engine. -/
theorem UpdateToState_keeps (env : Env) (cs0 : ConsensusState) (state : State)
    (hframe : ∀ cs, env.newStep cs = cs) :
    (UpdateToState env cs0 state).cs.Epoch = cs0.Epoch
    ∧ (UpdateToState env cs0 state).cs.PChainId = cs0.PChainId := by
  rcases UpdateToState_cs env cs0 state with h | h
  · rw [h]
    simp [resetFromState, resetHeight, updateRoundStep, Initialize]
  · rw [h, hframe]
    simp [resetFromState, resetHeight, updateRoundStep, Initialize]

/-- The parts of the proposal block are nil after `UpdateToState`, when `newStep`
writes no field of the engine. -/
theorem UpdateToState_proposal_parts (env : Env) (cs0 : ConsensusState) (state : State)
    (hframe : ∀ cs, env.newStep cs = cs) :
    (UpdateToState env cs0 state).cs.ProposalBlockParts = none := by
  rcases UpdateToState_cs env cs0 state with h | h
  · rw [h]
    simp [resetFromState, resetHeight, updateRoundStep, Initialize]
  · rw [h, hframe]
    simp [resetFromState, resetHeight, updateRoundStep, Initialize]

/-- C13, amended: for every engine state that a `StartNewHeight` call which ran to its
end has just left, a further `StartNewHeight` call on the same chain, at any later
reading of the clock, runs to its end and is a no-op on the height and the round
state: the height, the round, the step, the proposal with its block and parts, the
locked round and block with its parts, the commit round and the two vote collections
are the same after the call as before.  The methods `newStep`, `scheduleRound0` and
`ReconstructLastCommit` are taken to write no field of the engine or the state. -/
theorem C13_second_trigger_noop (env env2 : Env) (b : Backend) (cs cs1 : ConsensusState)
    (hnew : ∀ c, env.newStep c = c) (hnew2 : ∀ c, env2.newStep c = c)
    (hsched : ∀ c, b.scheduleRound0 c = c)
    (hrec : ∀ c s, b.ReconstructLastCommit c s = (c, s))
    (hval : env2.GetValidators = env.GetValidators)
    (hfirst : StartNewHeight env b cs = { cs := cs1, halted := none }) :
    (StartNewHeight env2 b cs1).halted = none
    ∧ (StartNewHeight env2 b cs1).cs.Height = cs1.Height
    ∧ (StartNewHeight env2 b cs1).cs.Round = cs1.Round
    ∧ (StartNewHeight env2 b cs1).cs.Step = cs1.Step
    ∧ (StartNewHeight env2 b cs1).cs.Proposal = cs1.Proposal
    ∧ (StartNewHeight env2 b cs1).cs.ProposalBlock = cs1.ProposalBlock
    ∧ (StartNewHeight env2 b cs1).cs.ProposalBlockParts = cs1.ProposalBlockParts
    ∧ (StartNewHeight env2 b cs1).cs.LockedRound = cs1.LockedRound
    ∧ (StartNewHeight env2 b cs1).cs.LockedBlock = cs1.LockedBlock
    ∧ (StartNewHeight env2 b cs1).cs.LockedBlockParts = cs1.LockedBlockParts
    ∧ (StartNewHeight env2 b cs1).cs.CommitRound = cs1.CommitRound
    ∧ (StartNewHeight env2 b cs1).cs.Votes = cs1.Votes
    ∧ (StartNewHeight env2 b cs1).cs.VoteSignAggr = cs1.VoteSignAggr := by
  have hrun : (StartNewHeight env b cs).halted = none := by rw [hfirst]
  have hcs1 : (StartNewHeight env b cs).cs = cs1 := by rw [hfirst]
  obtain ⟨hic, hiother⟩ := InitState_frame b cs cs.Epoch hrec
  obtain ⟨hex, hpan⟩ := (StartNewHeight_halted env b cs).1 hrun
  rw [StartNewHeight_cs env b cs hrun, hsched, hnew, hic] at hcs1
  rw [hic] at hpan
  obtain ⟨hep, hid⟩ :=
    UpdateToState_keeps env cs (InitState b cs cs.Epoch).state hnew
  rw [hcs1] at hep hid
  obtain ⟨hic1, _⟩ := InitState_frame b cs1 cs1.Epoch hrec
  have hst : (InitState b cs1 cs1.Epoch).state = (InitState b cs cs.Epoch).state := by
    rw [hep]
    exact (hiother cs1).1
  have hex1 : (InitState b cs1 cs1.Epoch).exited = none := by
    rw [hep, (hiother cs1).2]
    exact hex
  have hrun2 : (StartNewHeight env2 b cs1).halted = none := by
    rw [StartNewHeight_halted, hic1, hst]
    refine ⟨hex1, ?_⟩
    rw [UpdateToState_panicked_congr env env2 cs cs1 _ hval]
    exact hpan
  refine ⟨hrun2, ?_⟩
  rw [StartNewHeight_cs env2 b cs1 hrun2, hsched, hnew2, hic1, hst]
  obtain ⟨a1, a2, a3, a4, a5, a6, a7, a8, a9, _, a11, a12⟩ :=
    UpdateToState_round_data env2 cs1 (InitState b cs cs.Epoch).state hnew2
  obtain ⟨b1, b2, b3, b4, b5, b6, b7, b8, b9, _, b11, b12⟩ :=
    UpdateToState_round_data env cs (InitState b cs cs.Epoch).state hnew
  have ap := UpdateToState_proposal_parts env2 cs1 (InitState b cs cs.Epoch).state hnew2
  have bp := UpdateToState_proposal_parts env cs (InitState b cs cs.Epoch).state hnew
  rw [hcs1] at b1 b2 b3 b4 b5 b6 b7 b8 b9 b11 b12 bp
  rw [hid, hval] at a11 a12
  exact ⟨a1.trans b1.symm, a2.trans b2.symm, a3.trans b3.symm, a8.trans b8.symm,
    a9.trans b9.symm, ap.trans bp.symm, a4.trans b4.symm, a5.trans b5.symm,
    a6.trans b6.symm, a7.trans b7.symm, a11.trans b11.symm, a12.trans b12.symm⟩

/-- Witness of C13: the engine that `StartNewHeight` left over the chain at block 41,
at height 42, round 0, unlocked, is left as it is by a second call at a later
reading of the clock. -/
theorem C13_second_trigger_noop_witness :
    (StartNewHeight laterEnv exampleBackend
        (StartNewHeight exampleEnv exampleBackend midRoundEngine).cs).halted = none
    ∧ (StartNewHeight laterEnv exampleBackend
        (StartNewHeight exampleEnv exampleBackend midRoundEngine).cs).cs.Height = 42
    ∧ (StartNewHeight laterEnv exampleBackend
        (StartNewHeight exampleEnv exampleBackend midRoundEngine).cs).cs.Votes
      = (StartNewHeight exampleEnv exampleBackend midRoundEngine).cs.Votes :=
  have h := C13_second_trigger_noop exampleEnv laterEnv exampleBackend midRoundEngine
    (StartNewHeight exampleEnv exampleBackend midRoundEngine).cs
    (fun _ => rfl) (fun _ => rfl) (fun _ => rfl) (fun _ _ => rfl) rfl rfl
  ⟨h.1, h.2.1.trans (by decide), h.2.2.2.2.2.2.2.2.2.2.2.1⟩

/-! ## Cross-chain callbacks: the Validate callbacks change nothing -/

/-- The state a helper method leaves has the recorded ids of the state it received. -/
theorem keeps_of_eq {α : Type} {r : α × HelperState} {x : α} {hs hs1 : HelperState}
    (h : r.2.crossChainTxs = hs.crossChainTxs) (heq : r = (x, hs1)) :
    hs1.crossChainTxs = hs.crossChainTxs := by
  rw [heq] at h
  exact h

theorem ccc_ValidateCb_frame (cch : CrossChainHelper) (tx : Transaction) (state : StateDB)
    (hs : HelperState) (hq : QueriesKeepRecord cch) :
    (ccc_ValidateCb cch tx state hs).state = state
    ∧ (ccc_ValidateCb cch tx state hs).helper.crossChainTxs = hs.crossChainTxs := by
  obtain ⟨h1, _, _, _, _, _, _⟩ := hq
  unfold ccc_ValidateCb
  split
  · exact ⟨rfl, rfl⟩
  · split
    · split
      · next heq => exact ⟨rfl, keeps_of_eq (h1 _ _ _ _ _ _ _) heq⟩
      · next heq => exact ⟨rfl, keeps_of_eq (h1 _ _ _ _ _ _ _) heq⟩
    · exact ⟨rfl, rfl⟩

theorem jcc_ValidateCb_frame (cch : CrossChainHelper) (tx : Transaction) (state : StateDB)
    (hs : HelperState) (hq : QueriesKeepRecord cch) :
    (jcc_ValidateCb cch tx state hs).state = state
    ∧ (jcc_ValidateCb cch tx state hs).helper.crossChainTxs = hs.crossChainTxs := by
  obtain ⟨_, h2, _, _, _, _, _⟩ := hq
  unfold jcc_ValidateCb
  split
  · exact ⟨rfl, rfl⟩
  · split
    · split
      · exact ⟨rfl, rfl⟩
      · split
        · next heq => exact ⟨rfl, keeps_of_eq (h2 _ _ _ _ _) heq⟩
        · next heq => exact ⟨rfl, keeps_of_eq (h2 _ _ _ _ _) heq⟩
    · exact ⟨rfl, rfl⟩

theorem dimc_ValidateCb_frame (cch : CrossChainHelper) (tx : Transaction) (state : StateDB)
    (hs : HelperState) :
    (dimc_ValidateCb cch tx state hs).state = state
    ∧ (dimc_ValidateCb cch tx state hs).helper = hs := by
  unfold dimc_ValidateCb
  split
  · exact ⟨rfl, rfl⟩
  · split
    · split <;> exact ⟨rfl, rfl⟩
    · exact ⟨rfl, rfl⟩

theorem wfcc_ValidateCb_frame (cch : CrossChainHelper) (tx : Transaction) (state : StateDB)
    (hs : HelperState) :
    (wfcc_ValidateCb cch tx state hs).state = state
    ∧ (wfcc_ValidateCb cch tx state hs).helper = hs := by
  unfold wfcc_ValidateCb
  split
  · exact ⟨rfl, rfl⟩
  · split
    · split <;> exact ⟨rfl, rfl⟩
    · exact ⟨rfl, rfl⟩

theorem sb2mc_ValidateCb_frame (cch : CrossChainHelper) (tx : Transaction) (state : StateDB)
    (hs : HelperState) (hq : QueriesKeepRecord cch) :
    (sb2mc_ValidateCb cch tx state hs).state = state
    ∧ (sb2mc_ValidateCb cch tx state hs).helper.crossChainTxs = hs.crossChainTxs := by
  obtain ⟨_, _, _, _, _, _, h7⟩ := hq
  unfold sb2mc_ValidateCb
  split
  · exact ⟨rfl, rfl⟩
  · split
    · split
      · next heq => exact ⟨rfl, keeps_of_eq (h7 _ _ _) heq⟩
      · next heq => exact ⟨rfl, keeps_of_eq (h7 _ _ _) heq⟩
    · exact ⟨rfl, rfl⟩

theorem dicc_ValidateCb_frame (cch : CrossChainHelper) (tx : Transaction) (state : StateDB)
    (hs : HelperState) (hq : QueriesKeepRecord cch) :
    (dicc_ValidateCb cch tx state hs).state = state
    ∧ (dicc_ValidateCb cch tx state hs).helper.crossChainTxs = hs.crossChainTxs := by
  obtain ⟨_, _, h3, _, h5, _, _⟩ := hq
  unfold dicc_ValidateCb
  split
  · exact ⟨rfl, rfl⟩
  · split
    · split
      · next heq => exact ⟨rfl, keeps_of_eq (h3 _ _) heq⟩
      · next heq =>
        have e1 := keeps_of_eq (h3 _ _) heq
        split
        · next heq2 => exact ⟨rfl, (keeps_of_eq (h5 _ _) heq2).trans e1⟩
        · next heq2 =>
          have e2 := (keeps_of_eq (h5 _ _) heq2).trans e1
          split
          · exact ⟨rfl, e2⟩
          · split
            · exact ⟨rfl, e2⟩
            · split
              · split <;> exact ⟨rfl, e2⟩
              · exact ⟨rfl, e2⟩
    · exact ⟨rfl, rfl⟩

theorem wfmc_ValidateCb_frame (cch : CrossChainHelper) (tx : Transaction) (state : StateDB)
    (hs : HelperState) (hq : QueriesKeepRecord cch) :
    (wfmc_ValidateCb cch tx state hs).state = state
    ∧ (wfmc_ValidateCb cch tx state hs).helper.crossChainTxs = hs.crossChainTxs := by
  obtain ⟨_, _, _, h4, h5, h6, _⟩ := hq
  unfold wfmc_ValidateCb
  split
  · exact ⟨rfl, rfl⟩
  · split
    · split
      · next heq => exact ⟨rfl, keeps_of_eq (h4 _ _ _) heq⟩
      · next heq =>
        have e1 := keeps_of_eq (h4 _ _ _) heq
        split
        · next heq2 => exact ⟨rfl, (keeps_of_eq (h5 _ _) heq2).trans e1⟩
        · next heq2 =>
          have e2 := (keeps_of_eq (h5 _ _) heq2).trans e1
          split
          · exact ⟨rfl, e2⟩
          · split
            · exact ⟨rfl, e2⟩
            · split
              · split
                · exact ⟨rfl, e2⟩
                · split
                  · next heq3 => exact ⟨rfl, (keeps_of_eq (h6 _ _) heq3).trans e2⟩
                  · next heq3 =>
                    have e3 := (keeps_of_eq (h6 _ _) heq3).trans e2
                    split <;> exact ⟨rfl, e3⟩
              · exact ⟨rfl, e2⟩
    · exact ⟨rfl, rfl⟩
/-- C17: every Validate callback (`ccc_ValidateCb`, `jcc_ValidateCb`,
`dimc_ValidateCb`, `dicc_ValidateCb`, `wfcc_ValidateCb`, `wfmc_ValidateCb`,
`sb2mc_ValidateCb`) is read-only: for every transaction, account state and helper
state, however the call ends, the account state (balances, locked balances, chain
balances) and the recorded cross-chain transaction ids are the same after the call
as before.  The helper's methods that these callbacks call are taken to leave the
recorded ids as they are. -/
theorem C17_validate_read_only (cch : CrossChainHelper) (tx : Transaction)
    (state : StateDB) (hs : HelperState) (hq : QueriesKeepRecord cch) :
    ((ccc_ValidateCb cch tx state hs).state = state
      ∧ (ccc_ValidateCb cch tx state hs).helper.crossChainTxs = hs.crossChainTxs)
    ∧ ((jcc_ValidateCb cch tx state hs).state = state
      ∧ (jcc_ValidateCb cch tx state hs).helper.crossChainTxs = hs.crossChainTxs)
    ∧ ((dimc_ValidateCb cch tx state hs).state = state
      ∧ (dimc_ValidateCb cch tx state hs).helper.crossChainTxs = hs.crossChainTxs)
    ∧ ((dicc_ValidateCb cch tx state hs).state = state
      ∧ (dicc_ValidateCb cch tx state hs).helper.crossChainTxs = hs.crossChainTxs)
    ∧ ((wfcc_ValidateCb cch tx state hs).state = state
      ∧ (wfcc_ValidateCb cch tx state hs).helper.crossChainTxs = hs.crossChainTxs)
    ∧ ((wfmc_ValidateCb cch tx state hs).state = state
      ∧ (wfmc_ValidateCb cch tx state hs).helper.crossChainTxs = hs.crossChainTxs)
    ∧ ((sb2mc_ValidateCb cch tx state hs).state = state
      ∧ (sb2mc_ValidateCb cch tx state hs).helper.crossChainTxs = hs.crossChainTxs) := by
  refine ⟨ccc_ValidateCb_frame cch tx state hs hq, jcc_ValidateCb_frame cch tx state hs hq,
    ?_, dicc_ValidateCb_frame cch tx state hs hq, ?_,
    wfmc_ValidateCb_frame cch tx state hs hq, sb2mc_ValidateCb_frame cch tx state hs hq⟩
  · obtain ⟨h1, h2⟩ := dimc_ValidateCb_frame cch tx state hs
    exact ⟨h1, by rw [h2]⟩
  · obtain ⟨h1, h2⟩ := wfcc_ValidateCb_frame cch tx state hs
    exact ⟨h1, by rw [h2]⟩

/-- The example helper's methods leave the recorded ids as they are, `RecordCrossChainTx`
apart, which no Validate callback calls. -/
theorem exampleHelper_queries : QueriesKeepRecord exampleHelper :=
  ⟨fun _ _ _ _ _ _ _ => rfl, fun _ _ _ _ _ => rfl, fun _ _ => rfl, fun _ _ _ => rfl,
    fun _ _ => rfl, fun _ _ => rfl, fun _ _ _ => rfl⟩

/-- Witness of C17: the request to join a chain, validated against the example
accounts, returns nil and leaves the balance 100 and the locked balance 5 of
account 1 and the recorded id `[42]`. -/
theorem C17_validate_read_only_witness :
    (jcc_ValidateCb exampleHelper joinTxTyped exampleAccounts usedHelperState).out = .nil
    ∧ (jcc_ValidateCb exampleHelper joinTxTyped exampleAccounts usedHelperState).state
        = exampleAccounts
    ∧ (jcc_ValidateCb exampleHelper joinTxTyped exampleAccounts
        usedHelperState).helper.crossChainTxs = [[42]] :=
  ⟨by decide,
    (C17_validate_read_only exampleHelper joinTxTyped exampleAccounts usedHelperState
      exampleHelper_queries).2.1.1,
    (C17_validate_read_only exampleHelper joinTxTyped exampleAccounts usedHelperState
      exampleHelper_queries).2.1.2⟩

/-! ## Cross-chain callbacks: Apply callbacks -/

/-- C18 fails on the code: the transaction id `[42]` is already recorded, so
`RecordCrossChainTx` fails; yet `dimc_ApplyCb` and `wfcc_ApplyCb` return nil, after
lowering the balance of account 1 from 100 to 70 (and `dimc_ApplyCb` after raising
the chain balance of the chain owner, account 9, by 30). -/
theorem C18_apply_drops_record_failure :
    (exampleHelper.RecordCrossChainTx usedHelperState (addr 1) depositTx.Hash).1
        = some (.text "cross chain tx already recorded")
    ∧ (dimc_ApplyCb exampleHelper depositTx exampleAccounts usedHelperState).out = .nil
    ∧ (dimc_ApplyCb exampleHelper depositTx exampleAccounts usedHelperState).state.balance
        (addr 1) = 70
    ∧ (dimc_ApplyCb exampleHelper depositTx exampleAccounts
        usedHelperState).state.chainBalance (addr 9) = 30
    ∧ (wfcc_ApplyCb exampleHelper depositTx exampleAccounts usedHelperState).out = .nil
    ∧ (wfcc_ApplyCb exampleHelper depositTx exampleAccounts usedHelperState).state.balance
        (addr 1) = 70 := by
  decide

/-- C19: for a transaction whose parameters are byte strings, `jcc_ApplyCb` returns
`ErrBalance` and changes nothing when the sender's balance is below the deposit;
returns the helper's error and changes no balance when `JoinChildChain` fails; and
else returns nil, with the sender's balance lowered by the deposit, the sender's
locked balance raised by the deposit, their sum unchanged, and no balance of another
account, and no chain balance, touched. -/
theorem C19_jcc_apply_locks_deposit (cch : CrossChainHelper) (tx : Transaction)
    (state : StateDB) (hs : HelperState) (etd : ExtendTxData)
    (fromBytes pubkey chainId depositBytes : List (Fin 256))
    (hetd : tx.ExtendTxData = some etd)
    (hfrom : etd.Get JCC_ARGS_FROM = some (.bytes fromBytes))
    (hpub : etd.Get JCC_ARGS_PUBKEY = some (.bytes pubkey))
    (hchain : etd.Get JCC_ARGS_CHAINID = some (.bytes chainId))
    (hdep : etd.Get JCC_ARGS_DEPOSIT = some (.bytes depositBytes)) :
    (state.balance (BytesToAddress fromBytes) < bigIntSetBytes depositBytes →
      (jcc_ApplyCb cch tx state hs).out = .error .ErrBalance
      ∧ (jcc_ApplyCb cch tx state hs).state = state
      ∧ (jcc_ApplyCb cch tx state hs).helper = hs)
    ∧ (¬ state.balance (BytesToAddress fromBytes) < bigIntSetBytes depositBytes →
      ∀ err, (cch.JoinChildChain hs (BytesToAddress fromBytes) pubkey chainId
          (bigIntSetBytes depositBytes)).1 = some err →
        (jcc_ApplyCb cch tx state hs).out = .error err
        ∧ (jcc_ApplyCb cch tx state hs).state = state)
    ∧ (¬ state.balance (BytesToAddress fromBytes) < bigIntSetBytes depositBytes →
      (cch.JoinChildChain hs (BytesToAddress fromBytes) pubkey chainId
          (bigIntSetBytes depositBytes)).1 = none →
        (jcc_ApplyCb cch tx state hs).out = .nil
        ∧ (jcc_ApplyCb cch tx state hs).state.balance (BytesToAddress fromBytes)
            = state.balance (BytesToAddress fromBytes) - bigIntSetBytes depositBytes
        ∧ (jcc_ApplyCb cch tx state hs).state.lockedBalance (BytesToAddress fromBytes)
            = state.lockedBalance (BytesToAddress fromBytes) + bigIntSetBytes depositBytes
        ∧ (jcc_ApplyCb cch tx state hs).state.balance (BytesToAddress fromBytes)
            + (jcc_ApplyCb cch tx state hs).state.lockedBalance (BytesToAddress fromBytes)
            = state.balance (BytesToAddress fromBytes)
              + state.lockedBalance (BytesToAddress fromBytes)
        ∧ (∀ a, a ≠ BytesToAddress fromBytes →
            (jcc_ApplyCb cch tx state hs).state.balance a = state.balance a
            ∧ (jcc_ApplyCb cch tx state hs).state.lockedBalance a = state.lockedBalance a)
        ∧ (jcc_ApplyCb cch tx state hs).state.chainBalance = state.chainBalance) := by
  have hdef : jcc_ApplyCb cch tx state hs
      = if state.GetBalance (BytesToAddress fromBytes) < bigIntSetBytes depositBytes then
          ⟨state, hs, .error .ErrBalance⟩
        else
          match cch.JoinChildChain hs (BytesToAddress fromBytes) pubkey chainId
              (bigIntSetBytes depositBytes) with
          | (some err, hs1) => ⟨state, hs1, .error err⟩
          | (none, hs1) =>
            ⟨(state.SubBalance (BytesToAddress fromBytes)
                (bigIntSetBytes depositBytes)).AddLockedBalance (BytesToAddress fromBytes)
                (bigIntSetBytes depositBytes), hs1, .nil⟩ := by
    unfold jcc_ApplyCb
    simp only [hetd, hfrom, hpub, hchain, hdep, asBytes]
  rw [hdef]
  refine ⟨?_, ?_, ?_⟩
  · intro hlt
    rw [if_pos (by simpa [StateDB.GetBalance] using hlt)]
    exact ⟨rfl, rfl, rfl⟩
  · intro hge err herr
    rw [if_neg (by simpa [StateDB.GetBalance] using hge)]
    rcases hj : cch.JoinChildChain hs (BytesToAddress fromBytes) pubkey chainId
        (bigIntSetBytes depositBytes) with ⟨r, hs1⟩
    rw [hj] at herr
    simp only at herr
    subst herr
    exact ⟨rfl, rfl⟩
  · intro hge hnone
    rw [if_neg (by simpa [StateDB.GetBalance] using hge)]
    rcases hj : cch.JoinChildChain hs (BytesToAddress fromBytes) pubkey chainId
        (bigIntSetBytes depositBytes) with ⟨r, hs1⟩
    rw [hj] at hnone
    simp only at hnone
    subst hnone
    refine ⟨rfl, ?_, ?_, ?_, ?_, rfl⟩
    · simp [StateDB.SubBalance, StateDB.AddLockedBalance]
    · simp [StateDB.SubBalance, StateDB.AddLockedBalance]
    · simp [StateDB.SubBalance, StateDB.AddLockedBalance]
    · intro a ha
      simp [StateDB.SubBalance, StateDB.AddLockedBalance, Function.update, ha]

/-- Witness of C19: account 1, with balance 100 and locked balance 5, joins with a
deposit of 30 and is left with balance 70 and locked balance 35. -/
theorem C19_jcc_apply_locks_deposit_witness :
    (jcc_ApplyCb exampleHelper joinTx exampleAccounts usedHelperState).out = .nil
    ∧ (jcc_ApplyCb exampleHelper joinTx exampleAccounts usedHelperState).state.balance
        (BytesToAddress [1]) = exampleAccounts.balance (BytesToAddress [1]) - 30
    ∧ (jcc_ApplyCb exampleHelper joinTx exampleAccounts usedHelperState).state.lockedBalance
        (BytesToAddress [1]) = exampleAccounts.lockedBalance (BytesToAddress [1]) + 30 :=
  have h := (C19_jcc_apply_locks_deposit exampleHelper joinTx exampleAccounts usedHelperState
    { FuncName := "JoinChildChain",
      Params := [("from", .bytes [1]), ("pubkey", .bytes [8]), ("chainId", .bytes [99]),
        ("depositAmount", .bytes [30])] }
    [1] [8] [99] [30] rfl (by decide) (by decide) (by decide) (by decide)).2.2
    (by decide) (by decide)
  ⟨h.1, h.2.1, h.2.2.1⟩

/-! ## Signing votes and proposals: proposal before prevote before precommit -/

/-- At the recorded height and round, a request at a step below the recorded one is
refused with "Step regression", the record is unchanged and nothing is written. -/
theorem signBytesHRS_step_below (Sign : Bytes → Signature) (fsErr : Option String)
    (pv : PrivValidator) (height round step : Int) (signBytes : Bytes)
    (hh : pv.LastHeight = height) (hr : pv.LastRound = round) (hs : step < pv.LastStep) :
    signBytesHRS Sign fsErr pv height round step signBytes
      = { privVal := pv, written := [], out := .error "Step regression" } := by
  unfold signBytesHRS
  simp [hh, hr, hs]

/-- A vote at a step strictly above the recorded coordinate, with a file configured and
a successful write, is signed: the record takes the vote's coordinate, the signature
and the signed bytes, and the vote takes the signature. -/
theorem SignVote_fresh (Sign : Bytes → Signature) (voteSignBytes : String → Vote → Bytes)
    (pv : PrivValidator) (chainID : String) (vote : Vote) (step : Int)
    (hstep : voteToStep vote = some step)
    (hlt : hrsLt pv.hrs (vote.Height, vote.Round, step)) (hfile : pv.filePath ≠ "") :
    SignVote Sign voteSignBytes none pv chainID vote
      = { privVal :=
            { LastHeight := vote.Height, LastRound := vote.Round, LastStep := step,
              LastSignature := Sign (voteSignBytes chainID vote),
              LastSignBytes := voteSignBytes chainID vote, filePath := pv.filePath }
          written :=
            [(pv.filePath,
              { LastHeight := vote.Height, LastRound := vote.Round, LastStep := step,
                LastSignature := Sign (voteSignBytes chainID vote),
                LastSignBytes := voteSignBytes chainID vote, filePath := pv.filePath })]
          vote :=
            { vote with
              Signature := Sign (voteSignBytes chainID vote)
              SignBytes := voteSignBytes chainID
                { vote with Signature := Sign (voteSignBytes chainID vote) } }
          out := .nil } := by
  unfold SignVote
  rw [hstep]
  dsimp only
  rw [signBytesHRS_of_hrsLt Sign none pv vote.Height vote.Round step
      (voteSignBytes chainID vote) hlt,
    signAndSave_ok Sign pv vote.Height vote.Round step (voteSignBytes chainID vote) hfile]

/-- A proposal at step 1 strictly above the recorded coordinate, with a file configured
and a successful write, is signed: the record takes the proposal's height and round,
step 1, the signature and the signed bytes, and the proposal takes the signature. -/
theorem SignProposal_fresh (Sign : Bytes → Signature)
    (proposalSignBytes : String → Proposal → Bytes)
    (pv : PrivValidator) (chainID : String) (proposal : Proposal)
    (hlt : hrsLt pv.hrs (proposal.Height, proposal.Round, 1)) (hfile : pv.filePath ≠ "") :
    SignProposal Sign proposalSignBytes none pv chainID proposal
      = { privVal :=
            { LastHeight := proposal.Height, LastRound := proposal.Round, LastStep := 1,
              LastSignature := Sign (proposalSignBytes chainID proposal),
              LastSignBytes := proposalSignBytes chainID proposal, filePath := pv.filePath }
          written :=
            [(pv.filePath,
              { LastHeight := proposal.Height, LastRound := proposal.Round, LastStep := 1,
                LastSignature := Sign (proposalSignBytes chainID proposal),
                LastSignBytes := proposalSignBytes chainID proposal,
                filePath := pv.filePath })]
          proposal :=
            { proposal with Signature := Sign (proposalSignBytes chainID proposal) }
          out := .nil } := by
  unfold SignProposal
  dsimp only
  have h1 : stepPropose = 1 := rfl
  rw [h1, signBytesHRS_of_hrsLt Sign none pv proposal.Height proposal.Round 1
      (proposalSignBytes chainID proposal) hlt,
    signAndSave_ok Sign pv proposal.Height proposal.Round 1
      (proposalSignBytes chainID proposal) hfile]

/-- After a `SignVote` that returned nil, by a new signature or by the replay of the
last one, the record is at the vote's height and round and at the vote's step, and
the vote carries the recorded signature. -/
theorem SignVote_accepted (Sign : Bytes → Signature) (voteSignBytes : String → Vote → Bytes)
    (fsErr : Option String) (pv : PrivValidator) (chainID : String) (vote : Vote)
    (hout : (SignVote Sign voteSignBytes fsErr pv chainID vote).out = .nil) :
    (SignVote Sign voteSignBytes fsErr pv chainID vote).privVal.LastHeight = vote.Height
    ∧ (SignVote Sign voteSignBytes fsErr pv chainID vote).privVal.LastRound = vote.Round
    ∧ voteToStep vote
        = some (SignVote Sign voteSignBytes fsErr pv chainID vote).privVal.LastStep
    ∧ (SignVote Sign voteSignBytes fsErr pv chainID vote).vote.Signature
        = (SignVote Sign voteSignBytes fsErr pv chainID vote).privVal.LastSignature := by
  unfold SignVote at hout ⊢
  cases hstep : voteToStep vote with
  | none =>
    rw [hstep] at hout
    cases hout
  | some step =>
    rw [hstep] at hout
    dsimp only at hout ⊢
    cases hr : (signBytesHRS Sign fsErr pv vote.Height vote.Round step
        (voteSignBytes chainID vote)).out with
    | error msg =>
      rw [hr] at hout
      cases hout
    | panic msg =>
      rw [hr] at hout
      cases hout
    | ok signature =>
      obtain ⟨h1, _, h3⟩ := signBytesHRS_ok_record Sign fsErr pv vote.Height vote.Round step
        (voteSignBytes chainID vote) signature hr
      simp only [PrivValidator.hrs, Prod.mk.injEq] at h1
      exact ⟨h1.1, h1.2.1, by rw [h1.2.2], h3⟩

/-- At the recorded height and round, a proposal is refused when the recorded step is
above 1, and a vote is refused when the recorded step is above the vote's. -/
theorem SignProposal_step_below (Sign : Bytes → Signature)
    (proposalSignBytes : String → Proposal → Bytes) (fsErr : Option String)
    (pv : PrivValidator) (chainID : String) (proposal : Proposal)
    (hh : pv.LastHeight = proposal.Height) (hr : pv.LastRound = proposal.Round)
    (hs : 1 < pv.LastStep) :
    SignProposal Sign proposalSignBytes fsErr pv chainID proposal
      = { privVal := pv, written := [], proposal := proposal,
          out := .error "Error signing proposal: Step regression" } := by
  unfold SignProposal
  rw [signBytesHRS_step_below Sign fsErr pv proposal.Height proposal.Round stepPropose
    (proposalSignBytes chainID proposal) hh hr hs]
  rfl

theorem SignVote_step_below (Sign : Bytes → Signature)
    (voteSignBytes : String → Vote → Bytes) (fsErr : Option String)
    (pv : PrivValidator) (chainID : String) (vote : Vote) (step : Int)
    (hstep : voteToStep vote = some step)
    (hh : pv.LastHeight = vote.Height) (hr : pv.LastRound = vote.Round)
    (hs : step < pv.LastStep) :
    SignVote Sign voteSignBytes fsErr pv chainID vote
      = { privVal := pv, written := [], vote := vote,
          out := .error "Error signing vote: Step regression" } := by
  unfold SignVote
  rw [hstep]
  dsimp only
  rw [signBytesHRS_step_below Sign fsErr pv vote.Height vote.Round step
    (voteSignBytes chainID vote) hh hr hs]
  rfl

/-- The step of a vote is 2 or 3. -/
theorem voteToStep_cases (vote : Vote) (step : Int) (h : voteToStep vote = some step) :
    (vote.VoteType = VoteTypePrevote ∧ step = 2)
    ∨ (vote.VoteType = VoteTypePrecommit ∧ step = 3) := by
  unfold voteToStep at h
  split at h
  · rename_i ht
    injection h with h
    exact Or.inl ⟨ht, h.symm⟩
  · split at h
    · rename_i ht
      injection h with h
      exact Or.inr ⟨ht, h.symm⟩
    · cases h

/-- C21: `SignProposal` signs at step 1, `SignVote` at step 2 for a prevote and at step
3 for a precommit: at a coordinate above the recorded one, with a file configured,
they return nil, record the height, the round, that step, the signature and the
signed bytes, and set the `Signature` of the proposal or vote.  After every
`SignVote` that returned nil, the record is at the vote's height and round and at the
vote's step, with the signature the vote carries; a later `SignProposal` at that
height and round returns an error and leaves the record and the proposal, with its
`Signature`, as they are; and after a precommit, a later `SignVote` of a prevote at
that height and round returns an error and leaves the record and the vote, with its
`Signature`, as they are.  The same holds for every record whose step at that height
and round is 2 or 3.  Nothing is written by a refused call. -/
theorem C21_proposal_prevote_precommit (Sign : Bytes → Signature)
    (voteSignBytes : String → Vote → Bytes) (proposalSignBytes : String → Proposal → Bytes)
    (fsErr fsErr2 : Option String) (pv : PrivValidator) (chainID : String)
    (vote vote2 : Vote) (proposal : Proposal) :
    (stepPropose = 1
      ∧ (vote.VoteType = VoteTypePrevote → voteToStep vote = some 2)
      ∧ (vote.VoteType = VoteTypePrecommit → voteToStep vote = some 3))
    ∧ (∀ step, voteToStep vote = some step →
        hrsLt pv.hrs (vote.Height, vote.Round, step) → pv.filePath ≠ "" →
        SignVote Sign voteSignBytes none pv chainID vote
          = { privVal :=
                { LastHeight := vote.Height, LastRound := vote.Round, LastStep := step,
                  LastSignature := Sign (voteSignBytes chainID vote),
                  LastSignBytes := voteSignBytes chainID vote, filePath := pv.filePath }
              written :=
                [(pv.filePath,
                  { LastHeight := vote.Height, LastRound := vote.Round, LastStep := step,
                    LastSignature := Sign (voteSignBytes chainID vote),
                    LastSignBytes := voteSignBytes chainID vote, filePath := pv.filePath })]
              vote :=
                { vote with
                  Signature := Sign (voteSignBytes chainID vote)
                  SignBytes := voteSignBytes chainID
                    { vote with Signature := Sign (voteSignBytes chainID vote) } }
              out := .nil })
    ∧ (hrsLt pv.hrs (proposal.Height, proposal.Round, 1) → pv.filePath ≠ "" →
        SignProposal Sign proposalSignBytes none pv chainID proposal
          = { privVal :=
                { LastHeight := proposal.Height, LastRound := proposal.Round, LastStep := 1,
                  LastSignature := Sign (proposalSignBytes chainID proposal),
                  LastSignBytes := proposalSignBytes chainID proposal,
                  filePath := pv.filePath }
              written :=
                [(pv.filePath,
                  { LastHeight := proposal.Height, LastRound := proposal.Round,
                    LastStep := 1,
                    LastSignature := Sign (proposalSignBytes chainID proposal),
                    LastSignBytes := proposalSignBytes chainID proposal,
                    filePath := pv.filePath })]
              proposal :=
                { proposal with Signature := Sign (proposalSignBytes chainID proposal) }
              out := .nil })
    ∧ (∀ r1, SignVote Sign voteSignBytes fsErr pv chainID vote = r1 → r1.out = .nil →
        (r1.privVal.LastHeight = vote.Height ∧ r1.privVal.LastRound = vote.Round
          ∧ voteToStep vote = some r1.privVal.LastStep
          ∧ r1.vote.Signature = r1.privVal.LastSignature)
        ∧ (proposal.Height = vote.Height → proposal.Round = vote.Round →
            SignProposal Sign proposalSignBytes fsErr2 r1.privVal chainID proposal
              = { privVal := r1.privVal, written := [], proposal := proposal,
                  out := .error "Error signing proposal: Step regression" })
        ∧ (vote.VoteType = VoteTypePrecommit → vote2.VoteType = VoteTypePrevote →
            vote2.Height = vote.Height → vote2.Round = vote.Round →
            SignVote Sign voteSignBytes fsErr2 r1.privVal chainID vote2
              = { privVal := r1.privVal, written := [], vote := vote2,
                  out := .error "Error signing vote: Step regression" }))
    ∧ (pv.LastHeight = proposal.Height → pv.LastRound = proposal.Round →
        pv.LastStep = stepPrevote ∨ pv.LastStep = stepPrecommit →
        SignProposal Sign proposalSignBytes fsErr pv chainID proposal
          = { privVal := pv, written := [], proposal := proposal,
              out := .error "Error signing proposal: Step regression" })
    ∧ (pv.LastHeight = vote.Height → pv.LastRound = vote.Round →
        pv.LastStep = stepPrecommit → vote.VoteType = VoteTypePrevote →
        SignVote Sign voteSignBytes fsErr pv chainID vote
          = { privVal := pv, written := [], vote := vote,
              out := .error "Error signing vote: Step regression" }) := by
  refine ⟨⟨rfl, ?_, ?_⟩, ?_, ?_, ?_, ?_, ?_⟩
  · intro h
    simp [voteToStep, h, stepPrevote]
  · intro h
    simp [voteToStep, h, VoteTypePrecommit, VoteTypePrevote, stepPrecommit]
  · intro step hstep hlt hfile
    exact SignVote_fresh Sign voteSignBytes pv chainID vote step hstep hlt hfile
  · intro hlt hfile
    exact SignProposal_fresh Sign proposalSignBytes pv chainID proposal hlt hfile
  · intro r1 hr1 hout
    subst hr1
    obtain ⟨h1, h2, h3, h4⟩ := SignVote_accepted Sign voteSignBytes fsErr pv chainID vote hout
    refine ⟨⟨h1, h2, h3, h4⟩, ?_, ?_⟩
    · intro hh hr
      have hs : 1 < (SignVote Sign voteSignBytes fsErr pv chainID vote).privVal.LastStep := by
        rcases voteToStep_cases vote _ h3 with ⟨_, h⟩ | ⟨_, h⟩ <;> rw [h] <;> decide
      exact SignProposal_step_below Sign proposalSignBytes fsErr2 _ chainID proposal
        (h1.trans hh.symm) (h2.trans hr.symm) hs
    · intro hpre hprev hh hr
      have h5 : (SignVote Sign voteSignBytes fsErr pv chainID vote).privVal.LastStep = 3 := by
        rcases voteToStep_cases vote _ h3 with ⟨ht, _⟩ | ⟨_, h⟩
        · rw [hpre] at ht
          cases ht
        · exact h
      have hstep2 : voteToStep vote2 = some 2 := by simp [voteToStep, hprev, stepPrevote]
      exact SignVote_step_below Sign voteSignBytes fsErr2 _ chainID vote2 2 hstep2
        (h1.trans hh.symm) (h2.trans hr.symm) (by rw [h5]; decide)
  · intro hh hr hs
    have hlt : 1 < pv.LastStep := by
      rcases hs with h | h <;> rw [h] <;> decide
    exact SignProposal_step_below Sign proposalSignBytes fsErr pv chainID proposal hh hr hlt
  · intro hh hr hs ht
    have hstep : voteToStep vote = some 2 := by simp [voteToStep, ht, stepPrevote]
    exact SignVote_step_below Sign voteSignBytes fsErr pv chainID vote 2 hstep hh hr
      (by rw [hs]; decide)

/-- Witness of C21: a validator with a file signs a precommit at height 5, round 2,
which records step 3; a proposal and a prevote for that height and round are then
refused and stay unsigned. -/
theorem C21_proposal_prevote_precommit_witness :
    SignVote tagSigner exampleVoteBytes none genRecordWithFile "pchain" examplePrecommit
      = { privVal := precommitRecord,
          written := [("priv_validator.json", precommitRecord)],
          vote := { examplePrecommit with
                    Signature := some [7, 2, 9], SignBytes := some [2, 9] },
          out := .nil }
    ∧ SignProposal tagSigner exampleProposalBytes none precommitRecord "pchain"
        exampleProposal
      = { privVal := precommitRecord, written := [], proposal := exampleProposal,
          out := .error "Error signing proposal: Step regression" }
    ∧ SignVote tagSigner exampleVoteBytes none precommitRecord "pchain" examplePrevote
      = { privVal := precommitRecord, written := [], vote := examplePrevote,
          out := .error "Error signing vote: Step regression" }
    ∧ (SignProposal tagSigner exampleProposalBytes none genRecordWithFile "pchain"
        exampleProposal).privVal
      = { LastHeight := 5, LastRound := 2, LastStep := 1, LastSignature := some [7, 9],
          LastSignBytes := some [9], filePath := "priv_validator.json" } :=
  have h := (C21_proposal_prevote_precommit tagSigner exampleVoteBytes exampleProposalBytes
    none none genRecordWithFile "pchain" examplePrecommit examplePrevote exampleProposal)
  have h4 := h.2.2.2.1
    { privVal := precommitRecord,
      written := [("priv_validator.json", precommitRecord)],
      vote := { examplePrecommit with
                Signature := some [7, 2, 9], SignBytes := some [2, 9] },
      out := .nil }
    (by decide) rfl
  ⟨(h.2.1 3 (by decide) (by decide) (by decide)).trans (by decide),
    h4.2.1 (by decide) (by decide),
    h4.2.2 (by decide) (by decide) (by decide) (by decide),
    (congrArg SignProposalResult.privVal (h.2.2.1 (by decide) (by decide))).trans
      (by decide)⟩

/-! ## The rotation step: totality -/

/-- With Go's modulo, the scan over entries that are not 0 never panics and returns
what `find?` returns. -/
theorem scanPrimes_eq_find (tmpNum bc : Nat) :
    ∀ l : List Nat, (∀ p ∈ l, p ≠ 0) →
      scanPrimes tmpNum bc l
        = some (match l.find? (fun prime => decide (tmpNum > prime) && decide (bc % prime ≠ 0))
            with
          | some prime => prime
          | none => 1) := by
  intro l
  induction l with
  | nil => intro _; rfl
  | cons a l ih =>
    intro hl
    have ha : a ≠ 0 := hl a (List.mem_cons_self _ _)
    have ih1 := ih (fun p hp => hl p (List.mem_cons_of_mem _ hp))
    unfold scanPrimes
    by_cases h1 : tmpNum > a
    · by_cases h2 : bc % a = 0
      · simp [h1, h2, goMod, ha, List.find?_cons, ih1]
      · simp [h1, h2, goMod, ha, List.find?_cons]
    · simp [h1, List.find?_cons, ih1]

/-- No entry of the table is 0. -/
theorem primeArr_reverse_ne_zero : ∀ p ∈ primeArr.reverse, p ≠ 0 := by
  decide

/-- For a validator count that a Go `int` can hold, no division and no modulo of
`pickLongStep` panics, and the result is the one of the embedding with exact
division. -/
theorem pickLongStepChecked_eq (bc n : Nat) (hn : n < 2 ^ 63) :
    pickLongStepChecked bc n = some (pickLongStepOf bc n) := by
  unfold pickLongStepChecked pickLongStepOf
  by_cases h1 : n > 1
  · rw [if_pos h1, if_pos h1]
    by_cases h3 : n > 3
    · have hd : (n / 3) % 2 ^ 64 = n / 3 := Nat.mod_eq_of_lt (by omega)
      have hz : n / 3 ≠ 0 := by omega
      simp only [h3, if_true, hd, goDiv, hz, if_false]
      exact scanPrimes_eq_find _ _ _ primeArr_reverse_ne_zero
    · have hd : n % 2 ^ 64 = n := Nat.mod_eq_of_lt (by omega)
      have hz : n ≠ 0 := by omega
      simp only [h3, if_false, hd, goDiv, hz]
      exact scanPrimes_eq_find _ _ _ primeArr_reverse_ne_zero
  · rw [if_neg h1, if_neg h1]

/-- The result of `pickLongStepOf` is 1 or a table entry, and a result other than 1 is
below the block count and does not divide it. -/
theorem pickLongStepOf_usable (bc n : Nat) :
    (pickLongStepOf bc n = 1 ∨ pickLongStepOf bc n ∈ primeArr)
    ∧ (pickLongStepOf bc n ≠ 1 →
        pickLongStepOf bc n < bc ∧ bc % pickLongStepOf bc n ≠ 0) := by
  by_cases h1 : 1 < n
  · obtain ⟨hyes, hno⟩ := pickLongStepOf_largest bc n
      (if 3 < n then bc / (n / 3) else bc / n) h1 rfl
    have htarget : (if 3 < n then bc / (n / 3) else bc / n) ≤ bc := by
      split <;> exact Nat.div_le_self _ _
    by_cases hex : ∃ p ∈ primeArr, p < (if 3 < n then bc / (n / 3) else bc / n) ∧ bc % p ≠ 0
    · obtain ⟨hm, hlt, hmod, _⟩ := hyes hex
      exact ⟨Or.inr hm, fun _ => ⟨lt_of_lt_of_le hlt htarget, hmod⟩⟩
    · have h := hno hex
      exact ⟨Or.inl h, fun hne => absurd h hne⟩
  · have h : pickLongStepOf bc n = 1 := by
      unfold pickLongStepOf
      rw [if_neg h1]
    exact ⟨Or.inl h, fun hne => absurd h hne⟩

/-- C22: for every start and end block, also with the end below the start, where the
64-bit block count wraps, and every validator count that a Go `int` can hold, no
division and no modulo of `pickLongStep` is by zero, so the call returns; the result
is 1 or an entry of the table; and a result other than 1 is strictly below the block
count and does not divide it. -/
theorem C22_pickLongStep_total_usable (cs : ConsensusState) (validators : List Validator)
    (hn : validators.length < 2 ^ 63) :
    pickLongStepChecked (epochBlockCount cs.Epoch) validators.length
        = some (pickLongStep cs validators)
    ∧ (pickLongStep cs validators = 1 ∨ pickLongStep cs validators ∈ primeArr)
    ∧ (pickLongStep cs validators ≠ 1 →
        pickLongStep cs validators < epochBlockCount cs.Epoch
        ∧ epochBlockCount cs.Epoch % pickLongStep cs validators ≠ 0
        ∧ ¬ pickLongStep cs validators ∣ epochBlockCount cs.Epoch) := by
  obtain ⟨h1, h2⟩ := pickLongStepOf_usable (epochBlockCount cs.Epoch) validators.length
  refine ⟨pickLongStepChecked_eq _ _ hn, h1, ?_⟩
  intro hne
  obtain ⟨h3, h4⟩ := h2 hne
  exact ⟨h3, h4, fun hdvd => h4 (Nat.mod_eq_zero_of_dvd hdvd)⟩

/-- Witness of C22: the epoch from block 10 down to block 5 has the wrapped block count
2 ^ 64 - 4; with four validators the call returns the table entry 134217689, which
is below the block count and does not divide it. -/
theorem C22_pickLongStep_total_usable_witness :
    epochBlockCount wrappedEpoch = 2 ^ 64 - 4
    ∧ pickLongStepChecked (epochBlockCount wrappedEpoch) fourValidators.length
        = some 134217689
    ∧ pickLongStep (engineAt wrappedEpoch) fourValidators < epochBlockCount wrappedEpoch
    ∧ epochBlockCount wrappedEpoch % pickLongStep (engineAt wrappedEpoch) fourValidators ≠ 0 :=
  have h := C22_pickLongStep_total_usable (engineAt wrappedEpoch) fourValidators (by decide)
  ⟨by decide, h.1.trans (by decide), (h.2.2 (by decide)).1, (h.2.2 (by decide)).2.1⟩

end PChain
